import Mathlib

/-!
# Verification of the LoRa discrete-event simulator core

Shallow embedding of `VERSION_4/launcher/omnet_phy.py`,
`VERSION_4/launcher/server.py` and `VERSION_4/launcher/simulator.py`.

Conventions:
* Python floats are modelled as rationals (`ℚ`); the code under study only
  adds, subtracts, compares and divides them, except for `math.log10`,
  which is treated as an opaque external function and passed as a
  parameter where a definition needs it.
* Python `set` becomes `Finset ℕ`, Python `dict` assignment on a fresh
  key becomes an association-list append, `heapq` heaps are modelled by
  the multiset of their elements (a `List`), since `heappush`/`heapify`
  only change the representation order, never the contents.
* Components of this repository whose source files are not available
  here (the `DownlinkScheduler`, the `lorawan` constant tables, the
  `Gateway` down-link buffer and reporting behaviour, the `Node` record)
  are modelled from the specification; every such definition carries a
  doc comment starting with `Modelled from the spec:`.
-/

namespace LoraSim

/-- Python `round` (banker's rounding, half to even) on rationals, as used
by `round(margin / 3.0)` in `NetworkServer.receive` (server.py:296). -/
def pyRound (q : ℚ) : ℤ :=
  let f := ⌊q⌋
  let r := q - (f : ℚ)
  if r < 1/2 then f
  else if 1/2 < r then f + 1
  else if f % 2 = 0 then f else f + 1

/-- Python `int()` truncation toward zero on rationals, as used by
`int(power)` in `server.py:300` and `server.py:118`. -/
def pyInt (q : ℚ) : ℤ := if 0 ≤ q then ⌊q⌋ else ⌈q⌉

/-- Greatest element of a list, Python `max(...)` on a non-empty list
(`max(node.snr_history)`, server.py:293); `0` as junk value on `[]`,
which the code never reaches (the call is guarded by a length check). -/
def listMax : List ℚ → ℚ
  | [] => 0
  | x :: xs => xs.foldl max x

/-! ## PHY model (`omnet_phy.py`) -/

/-- The channel parameters read by `OmnetPHY.path_loss`
(omnet_phy.py:26-33). -/
structure PLChannel where
  frequency_hz : ℚ
  path_loss_exp : ℚ
  system_loss_dB : ℚ
deriving DecidableEq

/-- `OmnetPHY.path_loss` (omnet_phy.py:26-33).  `math.log10` is an opaque
external function, passed as the parameter `log10`. -/
def path_loss (log10 : ℚ → ℚ) (ch : PLChannel) (distance : ℚ) : ℚ :=
  if distance ≤ 0 then 0
  else
    let freq_mhz := ch.frequency_hz / 1000000
    let pl_d0 := 32.45 + 20 * log10 freq_mhz - 60
    let loss := pl_d0 + 10 * ch.path_loss_exp * log10 (max distance 1)
    loss + ch.system_loss_dB

/-- The comparison underlying
`sorted(range(len(rssi_list)), key=lambda i: rssi_list[i], reverse=True)`
(omnet_phy.py:105): index `i` precedes index `j` when its RSSI is at
least as large.  Python's `sorted` is stable, so among equal keys the
original index order is kept; `List.insertionSort` with this (total,
transitive) relation has the same behaviour. -/
def captureRel (l : List ℚ) : Fin l.length → Fin l.length → Prop :=
  fun i j => l.get j ≤ l.get i

instance (l : List ℚ) : DecidableRel (captureRel l) :=
  fun i j => inferInstanceAs (Decidable (l.get j ≤ l.get i))

instance (l : List ℚ) : IsTotal (Fin l.length) (captureRel l) :=
  ⟨fun i j => le_total (l.get j) (l.get i)⟩

instance (l : List ℚ) : IsTrans (Fin l.length) (captureRel l) :=
  ⟨fun _ _ _ h1 h2 => le_trans h2 h1⟩

/-- The index list `order` of omnet_phy.py:105: the indices of the RSSI
list, stably sorted by decreasing RSSI. -/
def captureOrder (l : List ℚ) : List (Fin l.length) :=
  List.insertionSort (captureRel l) (List.finRange l.length)

/-- `OmnetPHY.capture` (omnet_phy.py:101-112), parameterised by the
channel's `capture_threshold_dB`. -/
def capture (thr : ℚ) (l : List ℚ) : List Bool :=
  if l.isEmpty then []
  else
    match captureOrder l with
    | [] => []
    | [i] => (List.replicate l.length false).set i.val true
    | i :: j :: _ =>
      if thr ≤ l.get i - l.get j then
        (List.replicate l.length false).set i.val true
      else
        List.replicate l.length false

/-! ## Events and their ordering (`simulator.py`) -/

/-- `EventType` (simulator.py:22-28), an `IntEnum`; `val` is the integer
value of each member. -/
inductive EvType
  | TX_END
  | TX_START
  | MOBILITY
  | RX_WINDOW
deriving DecidableEq

/-- Integer value of each `EventType` member (simulator.py:25-28). -/
def EvType.val : EvType → ℕ
  | .TX_END => 0
  | .TX_START => 1
  | .MOBILITY => 2
  | .RX_WINDOW => 3

/-- The `Event` dataclass (simulator.py:31-36). -/
structure Event where
  time : ℚ
  type : EvType
  id : ℕ
  node_id : ℕ
deriving DecidableEq

/-- The strict order `@dataclass(order=True)` derives for `Event`
(simulator.py:31): Python compares the field tuples
`(time, type, id, node_id)` element by element, `IntEnum` members by
their integer value.  `heapq.heappop` always removes a least element of
the queue under this order. -/
def eventLt (a b : Event) : Bool :=
  if a.time < b.time then true
  else if b.time < a.time then false
  else if a.type.val < b.type.val then true
  else if b.type.val < a.type.val then false
  else if a.id < b.id then true
  else if b.id < a.id then false
  else decide (a.node_id < b.node_id)

/-! ## LoRaWAN frames, nodes, gateways (spec-modelled data model)

The files `lorawan.py`, `node.py`, `gateway.py` and
`downlink_scheduler.py` of this repository are not available here; only
`server.py` and `simulator.py`, which use them, are.  The records and
operations below are therefore modelled from the specification (§3,
§4.4, §4.5, §4.6, §6).  Cryptographic fields (keys, MIC, encrypted
payload) are opaque per the spec and are not modelled. -/

/-- Modelled from the spec: the payload of a `LoRaWANFrame` — either raw
bytes or an encoded `LinkADRReq(dr, p_idx, chmask, nbtrans)` MAC command
(the codec itself is an opaque bijection per §6, so the command is kept
structured). -/
inductive FPayload
  | bytes (b : List ℕ)
  | linkAdrReq (dr : ℕ) (p : ℕ) (chmask : ℕ) (nbtrans : ℕ)
deriving DecidableEq

/-- Modelled from the spec: the `LoRaWANFrame` fields that
`NetworkServer.send_downlink` constructs (server.py:103-109). -/
structure LWFrame where
  mhdr : ℕ
  fctrl : ℕ
  fcnt : ℕ
  payload : FPayload
  confirmed : Bool
deriving DecidableEq

/-- Modelled from the spec: the sum of frame kinds travelling through the
server (§9 "Duck-typed payload"): data frames, Join-Accepts and
Join-Requests.  Join frames carry only the fields `server.py` reads or
builds non-cryptographically. -/
inductive Frame
  | data (f : LWFrame)
  | joinAcceptF (appnonce : ℕ) (netid : ℕ) (devaddr : ℕ)
  | joinRequestF (devnonce : ℕ)
deriving DecidableEq

/-- `isinstance(frame, JoinRequest)` on an optional frame. -/
def isJoinRequest : Option Frame → Bool
  | some (.joinRequestF _) => true
  | _ => false

/-- `isinstance(frame, LoRaWANFrame)` on an optional frame (the security
check in server.py:262-272 only applies to data frames). -/
def isDataFrame : Option Frame → Bool
  | some (.data _) => true
  | _ => false

/-- Device class (§3). -/
inductive CT
  | A
  | B
  | C
deriving DecidableEq

/-- Modelled from the spec: the `Node` fields read or written by
`NetworkServer` (§3 data model).  Battery, position, counters and
security key material are not touched by the claims under study and are
omitted. -/
structure LNode where
  id : ℕ
  sf : ℕ
  tx_power : ℚ
  chmask : ℕ
  nb_trans : ℕ
  snr_history : List ℚ
  last_adr_ack_req : Bool
  activated : Bool
  security_enabled : Bool
  fcnt_down : ℕ
  downlink_pending : ℕ
  class_type : CT
  devnonce : ℕ
  last_beacon_time : Option ℚ
deriving DecidableEq

/-- Modelled from the spec: a gateway as seen from the server — an
identity and the per-node FIFO down-link buffer (§3, §4.4); the buffer
holds `(node_id, frame)` pairs in arrival order. -/
structure LGateway where
  id : ℕ
  downlink_buffer : List (ℕ × Frame)
deriving DecidableEq

/-- Modelled from the spec: `Gateway.buffer_downlink(node_id, frame)`
appends to the per-node FIFO (§4.4). -/
def gwsBuffer (gws : List LGateway) (gwId nid : ℕ) (fr : Frame) : List LGateway :=
  gws.map fun g =>
    if g.id = gwId then { g with downlink_buffer := g.downlink_buffer ++ [(nid, fr)] }
    else g

/-- `next((n for n in self.nodes if n.id == node_id), None)`
(server.py:246): first node of the list with the given id. -/
def findNode (ns : List LNode) (nid : ℕ) : Option LNode :=
  ns.find? fun m => m.id == nid

/-- Mutation of the node object found by `findNode`: in Python the object
is shared, so updating it updates the (first) list entry with that id. -/
def updateNode : List LNode → LNode → List LNode
  | [], _ => []
  | m :: ms, n => if m.id = n.id then n :: ms else m :: updateNode ms n

/-! ## lorawan.py constant tables (spec-modelled) -/

/-- Modelled from the spec: `TX_POWER_INDEX_TO_DBM` — the EU868 TX-power
index table, "0→max, steps of 2 dB" (§6), with the simulator's maximum
TX power of 14 dBm; indices 0..7. -/
def txPowerIndexToDbm (i : ℕ) : ℚ := 14 - 2 * (i : ℚ)

/-- `max(TX_POWER_INDEX_TO_DBM.keys())` for the table above. -/
def pMaxIdx : ℕ := 7

/-- Modelled from the spec: `DBM_TO_TX_POWER_INDEX.get(d, 0)` — inverse
of the table above on its exact integer values, defaulting to 0
(server.py:118, server.py:300). -/
def dbmToTxPowerIndex (d : ℤ) : ℕ :=
  ((List.range (pMaxIdx + 1)).find? fun (i : ℕ) => decide ((14 : ℤ) - 2 * (i : ℤ) = d)).getD 0

/-- Modelled from the spec: `SF_TO_DR.get(sf, 5)` — EU868 data-rate of a
spreading factor (SF12→DR0 … SF7→DR5), defaulting to 5 (server.py:117). -/
def sfToDr (sf : ℕ) : ℕ := if 7 ≤ sf ∧ sf ≤ 12 then 12 - sf else 5

/-- `REQUIRED_SNR.get(sf, -20.0)` (server.py:18, server.py:294). -/
def requiredSnr (sf : ℕ) : ℚ :=
  match sf with
  | 7 => -15/2
  | 8 => -10
  | 9 => -25/2
  | 10 => -15
  | 11 => -35/2
  | 12 => -20
  | _ => -20

/-- `MARGIN_DB` (server.py:19). -/
def marginDb : ℚ := 15

/-! ## Downlink scheduler (spec-modelled, §4.6) -/

/-- Modelled from the spec: one entry of the per-node ordered sequence
`(deliver_time, seq, frame, gateway)` (§3, §4.6). -/
structure SchedEntry where
  time : ℚ
  seq : ℕ
  frame : Frame
  gw : ℕ
deriving DecidableEq

/-- Modelled from the spec: the `DownlinkScheduler` — a per-node ordered
sequence of entries plus the monotone `seq` counter. -/
structure Scheduler where
  queue : List (ℕ × List SchedEntry)
  seqCounter : ℕ
deriving DecidableEq

/-- The ordered sequence held for a node (empty when absent). -/
def schedGet (sch : Scheduler) (nid : ℕ) : List SchedEntry :=
  ((sch.queue.find? fun p => p.1 == nid).map Prod.snd).getD []

/-- Replace the sequence held for a node. -/
def schedSetList : List (ℕ × List SchedEntry) → ℕ → List SchedEntry → List (ℕ × List SchedEntry)
  | [], nid, l => [(nid, l)]
  | p :: ps, nid, l => if p.1 = nid then (nid, l) :: ps else p :: schedSetList ps nid l

def schedSet (sch : Scheduler) (nid : ℕ) (l : List SchedEntry) : Scheduler :=
  { sch with queue := schedSetList sch.queue nid l }

/-- Insertion keeping the sequence ordered by `(deliver_time, seq)`. -/
def insEntry (e : SchedEntry) : List SchedEntry → List SchedEntry
  | [] => [e]
  | x :: xs =>
    if x.time < e.time ∨ (x.time = e.time ∧ x.seq ≤ e.seq) then x :: insEntry e xs
    else e :: x :: xs

/-- Modelled from the spec: `DownlinkScheduler.schedule(node_id, at_time,
frame, gw)` — insert into the node's ordered sequence (§4.6). -/
def schedSchedule (sch : Scheduler) (nid : ℕ) (t : ℚ) (fr : Frame) (gw : ℕ) : Scheduler :=
  let e : SchedEntry := ⟨t, sch.seqCounter, fr, gw⟩
  { queue := schedSetList sch.queue nid (insEntry e (schedGet sch nid)),
    seqCounter := sch.seqCounter + 1 }

/-- Modelled from the spec: the next Class-B ping slot
`last_beacon_time + ping_offset + k·ping_interval` that is ≥ `after`
(§4.5, drift 0 as the server passes none; missing beacon time counts as
0). -/
def pingSlotTime (after : ℚ) (lastBeacon : Option ℚ) (pingInt pingOff : ℚ) : ℚ :=
  let base := lastBeacon.getD 0 + pingOff
  if after ≤ base then base
  else base + pingInt * ((max 0 ⌈(after - base) / pingInt⌉ : ℤ) : ℚ)

/-- Modelled from the spec: `DownlinkScheduler.schedule_class_b` —
compute the aligned slot ≥ `after` and insert (§4.6).  `beaconInt` is
accepted for signature fidelity but the slot is anchored to the node's
last beacon per §4.5. -/
def schedClassB (sch : Scheduler) (nid : ℕ) (after : ℚ) (fr : Frame) (gw : ℕ)
    (beaconInt pingInt pingOff : ℚ) (lastBeacon : Option ℚ) : Scheduler :=
  let _ := beaconInt
  schedSchedule sch nid (pingSlotTime after lastBeacon pingInt pingOff) fr gw

/-- Modelled from the spec: `DownlinkScheduler.schedule_class_c(node, at,
frame, gw)` — plain insert; the accompanying `RX_WINDOW` event is pushed
by the server itself (§4.6, server.py:159-168). -/
def schedClassC (sch : Scheduler) (nid : ℕ) (t : ℚ) (fr : Frame) (gw : ℕ) : Scheduler :=
  schedSchedule sch nid t fr gw

/-- Modelled from the spec: `DownlinkScheduler.next_time(node_id)` —
peek at the head's deliver time (§4.6). -/
def schedNextTime (sch : Scheduler) (nid : ℕ) : Option ℚ :=
  (schedGet sch nid).head?.map SchedEntry.time

/-- Modelled from the spec: `DownlinkScheduler.pop_ready(node_id, now)` —
return (and remove) the earliest frame+gateway whose deliver time is
≤ `now`, else `(∅, ∅)` (§4.6). -/
def schedPopReady (sch : Scheduler) (nid : ℕ) (now : ℚ) :
    Option (Frame × ℕ) × Scheduler :=
  match schedGet sch nid with
  | [] => (none, sch)
  | e :: rest =>
    if e.time ≤ now then (some (e.frame, e.gw), schedSet sch nid rest)
    else (none, sch)

/-! ## Network server state (`server.py`) -/

/-- The simulator handle the server optionally holds (server.py:48,
used in server.py:131 and server.py:160-168): its clock, event queue and
event-id counter. -/
structure SimRef where
  current_time : ℚ
  event_queue : List Event
  event_id_counter : ℕ
deriving DecidableEq

/-- The `NetworkServer` state (server.py:25-53).  `noise_floor` stands
for the value of `self.channel.noise_floor_dBm()` (the deterministic
base noise floor of the attached channel); `joinServer` records whether
a join server is attached. -/
structure ServerState where
  received_events : Finset ℕ
  event_gateway : List (ℕ × ℕ)
  packets_received : ℕ
  adr_enabled : Bool
  nodes : List LNode
  gateways : List LGateway
  noise_floor : ℚ
  net_id : ℕ
  next_devaddr : ℕ
  scheduler : Scheduler
  joinServer : Bool
  sim : Option SimRef
  beacon_interval : ℚ
  ping_slot_interval : ℚ
  ping_slot_offset : ℚ
deriving DecidableEq

/-- The optional `payload` argument of `send_downlink` (server.py:76):
raw bytes, a data frame, or a Join-Accept. -/
inductive Payload
  | raw (b : List ℕ)
  | pframe (f : LWFrame)
  | pjoin (appnonce : ℕ) (netid : ℕ) (devaddr : ℕ)
deriving DecidableEq

/-- `NetworkServer.send_downlink` (server.py:73-174).

* `n` is the Python `node` argument; the caller guarantees it is the
  (first) entry of `s.nodes` with its id, which mutation updates.
* `adr_command` is the 4-tuple form `(sf, power, chmask, nbtrans)`; the
  2-tuple form is never used by `server.py` itself.
* The security block (server.py:120-127) only sets the frame's
  `encrypted_payload`/`mic` via opaque crypto; those fields are not
  modelled, so the block has no observable effect here. -/
def sendDownlink (s : ServerState) (n : LNode) (payload : Payload)
    (confirmed : Bool) (adr_command : Option (ℕ × ℚ × ℕ × ℕ))
    (request_ack : Bool) (at_time : Option ℚ) (gateway : Option ℕ) : ServerState :=
  let gwOpt : Option ℕ :=
    match gateway with
    | some g => some g
    | none => s.gateways.head?.map LGateway.id
  match gwOpt with
  | none => s
  | some gwId =>
    let fctrl : ℕ := if request_ack then 32 else 0
    let frame : Frame :=
      match payload with
      | .pjoin a b c => .joinAcceptF a b c
      | .pframe f => .data f
      | .raw b => .data ⟨96, fctrl, n.fcnt_down, .bytes b, confirmed⟩
    let frame : Frame :=
      match adr_command, frame with
      | some (sf, power, chmask, nbtrans), .data f =>
        .data { f with payload :=
          FPayload.linkAdrReq (sfToDr sf) (dbmToTxPowerIndex (pyInt power)) chmask nbtrans }
      | _, fr => fr
    let n1 := { n with fcnt_down := n.fcnt_down + 1 }
    let s1 := { s with nodes := updateNode s.nodes n1 }
    let s2 :=
      match at_time with
      | none =>
        match n1.class_type with
        | .B =>
          let after := (s1.sim.map SimRef.current_time).getD 0
          let sch := schedClassB s1.scheduler n1.id after frame gwId s1.beacon_interval s1.ping_slot_interval s1.ping_slot_offset n1.last_beacon_time
          { s1 with scheduler := sch }
        | _ => { s1 with gateways := gwsBuffer s1.gateways gwId n1.id frame }
      | some t =>
        match n1.class_type with
        | .B =>
          let sch := schedClassB s1.scheduler n1.id t frame gwId s1.beacon_interval s1.ping_slot_interval s1.ping_slot_offset n1.last_beacon_time
          { s1 with scheduler := sch }
        | .C =>
          let s3 := { s1 with scheduler := schedClassC s1.scheduler n1.id t frame gwId }
          match s3.sim with
          | none => s3
          | some sr =>
            let ev : Event := ⟨t, .RX_WINDOW, sr.event_id_counter, n1.id⟩
            let sr2 : SimRef := ⟨sr.current_time, sr.event_queue ++ [ev], sr.event_id_counter + 1⟩
            { s3 with sim := some sr2 }
        | .A => { s1 with scheduler := schedSchedule s1.scheduler n1.id t frame gwId }
    let n2 := { n1 with downlink_pending := n1.downlink_pending + 1 }
    { s2 with nodes := updateNode s2.nodes n2 }

/-- `NetworkServer._activate` (server.py:196-212).  Session-key derivation
is opaque crypto (§1); only the Join-Accept parameters and the devaddr
counter are modelled. -/
def activate (s : ServerState) (n : LNode) (gwRef : Option ℕ) : ServerState :=
  let appnonce := s.next_devaddr % 16777216
  let devaddr := s.next_devaddr
  let s1 := { s with next_devaddr := s.next_devaddr + 1 }
  sendDownlink s1 n (.pjoin appnonce s1.net_id devaddr) false none false none gwRef

/-- The `while frame and gw:` loop of `NetworkServer.deliver_scheduled`
(server.py:191-194), with fuel (each iteration removes one scheduler
entry, so the queue length bounds the iteration count). -/
def deliverLoop : ℕ → ServerState → ℕ → ℚ → ServerState
  | 0, s, _, _ => s
  | fuel + 1, s, nid, now =>
    match schedPopReady s.scheduler nid now with
    | (none, _) => s
    | (some (fr, gw), sch') =>
      deliverLoop fuel
        { s with scheduler := sch', gateways := gwsBuffer s.gateways gw nid fr } nid now

/-- `NetworkServer.deliver_scheduled` (server.py:183-194). -/
def deliverScheduled (s : ServerState) (nid : ℕ) (now : ℚ) : ServerState :=
  let tolerance : ℚ := 1/10
  let s1 :=
    match schedNextTime s.scheduler nid with
    | some nxt =>
      if nxt < now - tolerance then
        match schedPopReady s.scheduler nid nxt with
        | (some (fr, gw), sch') =>
          { s with scheduler := sch', gateways := gwsBuffer s.gateways gw nid fr }
        | (none, _) => s
      else s
    | none => s
  deliverLoop (schedGet s1.scheduler nid).length s1 nid now

/-! ## The server-side ADR step (`server.py:282-325`) -/

/-- The `while nstep > 0 ...` mutation loop (server.py:302-311): prefer
decrementing SF toward 7, then incrementing the power index; the fuel is
`nstep`, which the loop decrements once per iteration. -/
def adrLoopUp : ℕ → ℕ → ℕ → ℚ → ℕ × ℕ × ℚ
  | 0, sf, p, pw => (sf, p, pw)
  | k + 1, sf, p, pw =>
    if 7 < sf ∨ p < pMaxIdx then
      if 7 < sf then adrLoopUp k (sf - 1) p pw
      else adrLoopUp k sf (p + 1) (txPowerIndexToDbm (p + 1))
    else (sf, p, pw)

/-- The `while nstep < 0 ...` mutation loop (server.py:312-319): prefer
decrementing the power index toward 0, then incrementing SF toward 12. -/
def adrLoopDown : ℕ → ℕ → ℕ → ℚ → ℕ × ℕ × ℚ
  | 0, sf, p, pw => (sf, p, pw)
  | k + 1, sf, p, pw =>
    if 0 < p ∨ sf < 12 then
      if 0 < p then adrLoopDown k sf (p - 1) (txPowerIndexToDbm (p - 1))
      else adrLoopDown k (sf + 1) p pw
    else (sf, p, pw)

/-- The Join-Request branch of `receive` (server.py:250-260): delegate
to the join server, and on success install the session state and send
the Join-Accept down-link.  `joinOk` is the outcome of the opaque
`JoinServer.handle_join` (which raises on failure); the accept built by
it comes from opaque crypto and is abstracted to zero parameters. -/
def recvJoinBranch (s : ServerState) (n : LNode) (gwRef : Option ℕ)
    (joinOk : Bool) : ServerState :=
  if joinOk then
    let n2 := { n with activated := true }
    let s2 := { s with nodes := updateNode s.nodes n2 }
    sendDownlink s2 n2 (.pjoin 0 0 0) false none false none gwRef
  else s

/-- The ADR-ACK branch of `receive` (server.py:277-280): send an empty
down-link and clear the flag. -/
def recvAdrAck (s : ServerState) (n : LNode) (nid : ℕ) : ServerState :=
  let s2 := sendDownlink s n (.raw []) false none false none none
  let n2 := (findNode s2.nodes nid).getD n
  { s2 with nodes := updateNode s2.nodes { n2 with last_adr_ack_req := false } }

/-- The ADR step once the history is full (server.py:292-325): compute
the margin from the history already updated on `n1`, run the mutation
loop, and when `(sf, power)` changed send the LinkADRReq down-link and
clear the history. -/
def recvAdrApply (s : ServerState) (n1 : LNode) (nid : ℕ) : ServerState :=
  let margin := listMax n1.snr_history - requiredSnr n1.sf - marginDb
  let nstep := pyRound (margin / 3)
  let p0 := dbmToTxPowerIndex (pyInt n1.tx_power)
  let res :=
    if 0 < nstep then adrLoopUp nstep.toNat n1.sf p0 n1.tx_power
    else if nstep < 0 then adrLoopDown (-nstep).toNat n1.sf p0 n1.tx_power
    else (n1.sf, p0, n1.tx_power)
  if res.1 ≠ n1.sf ∨ res.2.2 ≠ n1.tx_power then
    let s2 := sendDownlink s n1 (.raw []) false
        (some (res.1, res.2.2, n1.chmask, n1.nb_trans)) false none none
    let n2 := (findNode s2.nodes nid).getD n1
    { s2 with nodes := updateNode s2.nodes { n2 with snr_history := [] } }
  else s

/-- The server-side ADR branch of `receive` (server.py:282-325): refetch
the node, append `snr = rssi − noise_floor` to its history capped at 20
entries, and apply the ADR step once the history is full. -/
def recvAdrBranch (s : ServerState) (nid : ℕ) (r : ℚ) : ServerState :=
  match findNode s.nodes nid with
  | none => s
  | some n =>
    let snr := r - s.noise_floor
    let h1 := n.snr_history ++ [snr]
    let h2 := if 20 < h1.length then h1.tail else h1
    let n1 := { n with snr_history := h2 }
    let s1 := { s with nodes := updateNode s.nodes n1 }
    if 20 ≤ h2.length then recvAdrApply s1 n1 nid else s1

/-- `NetworkServer.receive` (server.py:214-325), split into the phase
functions above.

Opaque-collaborator outcomes appear as parameters: `micOk` is the result
of `validate_frame` (crypto, §6) and `joinOk` the success of
`JoinServer.handle_join` (§6). -/
def receive (s0 : ServerState) (eid nid gwid : ℕ) (rssi : Option ℚ)
    (fr : Option Frame) (micOk joinOk : Bool) : ServerState :=
  if eid ∈ s0.received_events then s0
  else
    let s := { s0 with
      received_events := insert eid s0.received_events,
      event_gateway := s0.event_gateway ++ [(eid, gwid)],
      packets_received := s0.packets_received + 1 }
    match findNode s.nodes nid with
    | none => s
    | some n =>
      let gwRef : Option ℕ := ((s.gateways.find? fun g => g.id == gwid).map LGateway.id)
      if isJoinRequest fr ∧ s.joinServer then recvJoinBranch s n gwRef joinOk
      else if isDataFrame fr ∧ n.security_enabled ∧ ¬micOk then s
      else
        let s1 := if n.activated then s else activate s n gwRef
        let n1 := (findNode s1.nodes nid).getD n
        let s2 := if n1.last_adr_ack_req then recvAdrAck s1 n1 nid else s1
        match s2.adr_enabled, rssi with
        | true, some r => recvAdrBranch s2 nid r
        | _, _ => s2

/-! ## Simulator: TX_END scheduling tail (`simulator.py:438-457`) -/

/-- The simulator fields the TX_END scheduling tail reads and writes. -/
structure SimSched where
  event_queue : List Event
  event_id_counter : ℕ
  current_time : ℚ
  packets_sent : ℕ
  packets_to_send : ℕ
  retransmissions : ℕ
deriving DecidableEq

/-- `Simulator.schedule_event` (simulator.py:214-229) for a live node
with the duty-cycle manager disabled (`duty_cycle=None`): allocate an
event id and push a `TX_START`.  The multi-channel reassignment of
`node.channel` touches no field the TX_END tail reads and is omitted. -/
def scheduleEvent (st : SimSched) (nid : ℕ) (t : ℚ) : SimSched :=
  { st with
    event_queue := st.event_queue ++ [⟨t, .TX_START, st.event_id_counter, nid⟩],
    event_id_counter := st.event_id_counter + 1 }

/-- The scheduling tail of the TX_END handler (simulator.py:438-457):
remaining retries are rescheduled 1 s later; otherwise, while the global
packet budget allows, the next inter-arrival is scheduled
(`nextInterval` stands for the drawn exponential delay in Random mode or
the fixed period in Periodic mode); otherwise the queue is rebuilt
keeping the events whose type is `TX_END` (the `for evt ...: if
evt.type == EventType.TX_END` loop; `heapify` only reorders). -/
def txEndScheduleNext (st : SimSched) (nid : ℕ) (nbTransLeft : ℕ)
    (nextInterval : ℚ) : SimSched :=
  if 0 < nbTransLeft then
    scheduleEvent { st with retransmissions := st.retransmissions + 1 } nid
      (st.current_time + 1)
  else if st.packets_to_send = 0 ∨ st.packets_sent < st.packets_to_send then
    scheduleEvent st nid (st.current_time + nextInterval)
  else
    let pruned := st.event_queue.foldl (fun acc e => if e.type = EvType.TX_END then acc ++ [e] else acc) []
    { st with event_queue := pruned }

/-! ## Simulator runs: delivery counting (`simulator.py:361-395`)

Abstraction for the `|received_events| = packets_delivered` invariant.
In the source, `server.receive` is called only from
`Gateway.end_reception` inside the TX_END branch (simulator.py:369-370),
always with the id of the TX_END being processed, and
`packets_delivered` is incremented only in that branch
(simulator.py:374); TX_START allocates a fresh id from
`event_id_counter` and pushes the single TX_END carrying it
(simulator.py:218-219, 326-329); every other event type
(RX_WINDOW, MOBILITY, and the dead-node early return) touches neither
`received_events` nor `packets_delivered`.  A run is therefore a fold of
the inputs below. -/

/-- Modelled from the spec: what one gateway reports at TX_END —
`Gateway.end_reception` calls `server.receive(event_id, node_id, gw_id,
rssi, frame?)` for a non-lost in-flight signal (§4.4); the opaque
collaborator outcomes travel along. -/
structure C4Report where
  gw : ℕ
  rssi : Option ℚ
  frame : Option Frame
  micOk : Bool
  joinOk : Bool

/-- One dispatched event of a run, as far as delivery counting goes. -/
inductive C4Input
  | txStart
  | txEnd (e : ℕ) (nid : ℕ) (reports : List C4Report)
  | other

/-- The simulator fields relevant to delivery counting: the server, the
delivered counter, the ids of pending TX_END events, and the event-id
counter. -/
structure C4State where
  server : ServerState
  packets_delivered : ℕ
  pending : Finset ℕ
  counter : ℕ

/-- One step of a run (simulator.py:245-459 projected onto the fields of
`C4State`).  A TX_END only dispatches for an id that is pending in the
queue; it lets every gateway report to the server and then counts the
packet delivered exactly when its id made it into `received_events`
(simulator.py:372-374). -/
def c4Step (s : C4State) : C4Input → C4State
  | .txStart =>
    { s with counter := s.counter + 1, pending := insert s.counter s.pending }
  | .txEnd e nid reports =>
    if e ∈ s.pending then
      let srv := reports.foldl
        (fun sv r => receive sv e nid r.gw r.rssi r.frame r.micOk r.joinOk) s.server
      let add : ℕ := if e ∈ srv.received_events then 1 else 0
      { server := srv,
        packets_delivered := s.packets_delivered + add,
        pending := s.pending.erase e,
        counter := s.counter }
    else s
  | .other => s

/-- `NetworkServer.__init__` defaults (server.py:25-53) with the node,
gateway and channel references the simulator installs
(simulator.py:118, 166-170). -/
def mkServer (nodes : List LNode) (gws : List LGateway) (adr : Bool)
    (noise : ℚ) : ServerState :=
  { received_events := ∅,
    event_gateway := [],
    packets_received := 0,
    adr_enabled := adr,
    nodes := nodes,
    gateways := gws,
    noise_floor := noise,
    net_id := 0,
    next_devaddr := 1,
    scheduler := ⟨[], 0⟩,
    joinServer := false,
    sim := none,
    beacon_interval := 128,
    ping_slot_interval := 1,
    ping_slot_offset := 2 }

/-- Start of a run (simulator.py:176-186): empty heap-id history, no
packet delivered, nothing pending. -/
def c4Init (nodes : List LNode) (gws : List LGateway) (adr : Bool)
    (noise : ℚ) : C4State :=
  { server := mkServer nodes gws adr noise,
    packets_delivered := 0,
    pending := ∅,
    counter := 0 }

/-! ## Claim-side ADR step (closed form)

Independent rendering of the claim's description of the mutation loop —
"for positive nstep repeatedly decrements sf toward 7 before
incrementing the power index, and for negative nstep repeatedly
decrements the power index toward 0 before incrementing sf toward 12" —
as closed-form arithmetic, to be compared with the loops embedded from
`server.py`. -/

/-- Closed form of the positive branch: spend steps on lowering SF to 7
first, then on raising the power index to its maximum. -/
def adrUpSpec (k sf p : ℕ) (pw : ℚ) : ℕ × ℕ × ℚ :=
  let d1 := min k (sf - 7)
  let d2 := min (k - d1) (pMaxIdx - p)
  (sf - d1, p + d2, if d2 = 0 then pw else txPowerIndexToDbm (p + d2))

/-- Closed form of the negative branch: spend steps on lowering the power
index to 0 first, then on raising SF to 12. -/
def adrDownSpec (k sf p : ℕ) (pw : ℚ) : ℕ × ℕ × ℚ :=
  let d1 := min k p
  let d2 := min (k - d1) (12 - sf)
  (sf + d2, p - d1, if d1 = 0 then pw else txPowerIndexToDbm (p - d1))

/-- Claim-side ADR step, dispatching on the sign of `nstep`. -/
def adrStepSpec (nstep : ℤ) (sf p : ℕ) (pw : ℚ) : ℕ × ℕ × ℚ :=
  if 0 < nstep then adrUpSpec nstep.toNat sf p pw
  else if nstep < 0 then adrDownSpec (-nstep).toNat sf p pw
  else (sf, p, pw)

/-! ## Concrete states used in witnesses and counterexamples -/

/-- A concrete channel (EU868 frequency, exponent 2.7, 2.5 dB system
loss). -/
def wCh : PLChannel := ⟨868000000, 27/10, 5/2⟩

/-- A stand-in for `math.log10` used to evaluate witnesses. -/
def wLog10 : ℚ → ℚ := fun _ => 0

/-- A server that has already received event 0. -/
def wSrvDup : ServerState :=
  { mkServer [] [] false 0 with received_events := {0} }

/-- A concrete simulator state about to hit the packet budget: one
pending event of each type. -/
def wSimSched : SimSched :=
  { event_queue := [⟨5, .TX_END, 0, 1⟩, ⟨6, .MOBILITY, 1, 1⟩,
      ⟨7, .RX_WINDOW, 2, 1⟩, ⟨8, .TX_START, 3, 1⟩],
    event_id_counter := 4,
    current_time := 9/2,
    packets_sent := 1,
    packets_to_send := 1,
    retransmissions := 0 }

/-- The inductive invariant behind `|received_events| = packets_delivered`:
the count matches, pending TX_ENDs have never been delivered, and every
id ever handed out is below the counter. -/
def c4Inv (s : C4State) : Prop :=
  s.server.received_events.card = s.packets_delivered ∧
  (∀ e ∈ s.pending, e ∉ s.server.received_events) ∧
  (∀ e ∈ s.server.received_events, e < s.counter) ∧
  (∀ e ∈ s.pending, e < s.counter)

/-- A concrete class-A node. -/
def wNodeA : LNode :=
  { id := 1, sf := 12, tx_power := 14, chmask := 65535, nb_trans := 1,
    snr_history := [], last_adr_ack_req := false, activated := true,
    security_enabled := false, fcnt_down := 0, downlink_pending := 0,
    class_type := .A, devnonce := 0, last_beacon_time := none }

/-- A concrete gateway with an empty down-link buffer. -/
def wGw : LGateway := ⟨0, []⟩

/-- A server with one node and no gateway registered. -/
def wSrvNoGw : ServerState := mkServer [wNodeA] [] false (-100)

/-- A server with one node and one gateway. -/
def wSrvOneGw : ServerState := mkServer [wNodeA] [wGw] false (-100)

/-- A concrete empty data frame. -/
def wFrame : Frame := .data ⟨96, 0, 0, .bytes [], false⟩

/-- Three scheduled down-links for node 1 at times 0, 1 and 3 (sorted). -/
def wEntries : List SchedEntry :=
  [⟨0, 0, wFrame, 0⟩, ⟨1, 1, wFrame, 0⟩, ⟨3, 2, wFrame, 0⟩]

/-- A server whose scheduler holds `wEntries` for node 1. -/
def wSrvSched : ServerState :=
  { mkServer [wNodeA] [wGw] false (-100) with scheduler := ⟨[(1, wEntries)], 3⟩ }

/-- What C8 asserts of `deliver_scheduled` on the queue `q` held for
`nid`: the first frame moved is the (overdue) head, every entry with
deliver time ≤ `now` is moved — in queue order — into its own gateway's
per-node buffer, and exactly the entries with deliver time > `now`
remain scheduled. -/
def DeliverOutcome (s : ServerState) (nid : ℕ) (now : ℚ)
    (q : List SchedEntry) : Prop :=
  (q.filter (fun e => decide (e.time ≤ now))).head? = q.head? ∧
  schedGet (deliverScheduled s nid now).scheduler nid
    = q.filter (fun e => decide (¬e.time ≤ now)) ∧
  (deliverScheduled s nid now).gateways
    = (q.filter (fun e => decide (e.time ≤ now))).foldl
        (fun gws e => gwsBuffer gws e.gw nid e.frame) s.gateways

/-- The LinkADRReq down-link frame `send_downlink` builds for the ADR
command `(sf2, pw2, node.chmask, node.nb_trans)` (server.py:103-119):
an unconfirmed data frame holding the encoded request. -/
def adrFrame (n : LNode) (sf2 : ℕ) (pw2 : ℚ) : Frame :=
  .data ⟨96, 0, n.fcnt_down,
    .linkAdrReq (sfToDr sf2) (dbmToTxPowerIndex (pyInt pw2)) n.chmask n.nb_trans,
    false⟩

/-- What the (amended) C3 asserts of the post-state `s2` of a
`receive` call on server `s` for node `n` (found under `nid`), with
known RSSI `r` and first gateway `g0`: the packet is recorded; the SNR
sample `r − noise_floor` is appended to the history, capped at 20; while
the history is short nothing else happens; once it is full, with
`nstep = round(margin/3)` and the claim-side closed-form ADR step, an
unchanged `(sf, power)` leaves the node (with its new history) and the
down-link state untouched, while a changed `(sf, power)` clears the
history and emits the LinkADRReq — buffered at the first gateway for
class A/C, scheduled at the next ping slot for class B. -/
def AdrOutcome (s : ServerState) (n : LNode) (nid : ℕ) (r : ℚ)
    (g0 : LGateway) (eid : ℕ) (s2 : ServerState) : Prop :=
  let snr := r - s.noise_floor
  let h1 := n.snr_history ++ [snr]
  let h2 := if 20 < h1.length then h1.tail else h1
  let nstep := pyRound ((listMax h2 - requiredSnr n.sf - marginDb) / 3)
  let p0 := dbmToTxPowerIndex (pyInt n.tx_power)
  let res := adrStepSpec nstep n.sf p0 n.tx_power
  s2.received_events = insert eid s.received_events ∧
  s2.packets_received = s.packets_received + 1 ∧
  (h2.length < 20 →
    findNode s2.nodes nid = some { n with snr_history := h2 } ∧
    s2.gateways = s.gateways ∧ s2.scheduler = s.scheduler) ∧
  (20 ≤ h2.length →
    (¬(res.1 ≠ n.sf ∨ res.2.2 ≠ n.tx_power) →
      findNode s2.nodes nid = some { n with snr_history := h2 } ∧
      s2.gateways = s.gateways ∧ s2.scheduler = s.scheduler) ∧
    ((res.1 ≠ n.sf ∨ res.2.2 ≠ n.tx_power) →
      findNode s2.nodes nid = some
        { n with snr_history := [], fcnt_down := n.fcnt_down + 1,
                 downlink_pending := n.downlink_pending + 1 } ∧
      (n.class_type ≠ CT.B →
        s2.gateways = gwsBuffer s.gateways g0.id nid (adrFrame n res.1 res.2.2) ∧
        s2.scheduler = s.scheduler) ∧
      (n.class_type = CT.B →
        s2.scheduler = schedClassB s.scheduler nid
          ((s.sim.map SimRef.current_time).getD 0) (adrFrame n res.1 res.2.2)
          g0.id s.beacon_interval s.ping_slot_interval s.ping_slot_offset
          n.last_beacon_time ∧
        s2.gateways = s.gateways)))

/-- A class-A node at SF 12, power 14 dBm, with a 19-sample history. -/
def wNodeAdr : LNode :=
  { id := 1, sf := 12, tx_power := 14, chmask := 65535, nb_trans := 1,
    snr_history := List.replicate 19 0, last_adr_ack_req := false,
    activated := true, security_enabled := false, fcnt_down := 0,
    downlink_pending := 0, class_type := .A, devnonce := 0,
    last_beacon_time := none }

/-- An ADR-enabled server holding `wNodeAdr` but no gateway. -/
def wSrvAdrNoGw : ServerState := mkServer [wNodeAdr] [] true 0

/-- An ADR-enabled server holding `wNodeAdr` and one gateway. -/
def wSrvAdrGw : ServerState := mkServer [wNodeAdr] [wGw] true 0

/-! ## Lemmas and theorems -/

/-- `EvType.val` is injective (four distinct values). -/
theorem evTypeVal_inj : ∀ x y : EvType, x.val = y.val → x = y := by
  intro x y h
  cases x <;> cases y <;> simp_all [EvType.val]

/-- `send_downlink` never touches the duplicate-detection state. -/
theorem sendDownlink_received_events (s : ServerState) (n : LNode)
    (payload : Payload) (confirmed : Bool) (adr : Option (ℕ × ℚ × ℕ × ℕ))
    (rq : Bool) (t : Option ℚ) (g : Option ℕ) :
    (sendDownlink s n payload confirmed adr rq t g).received_events = s.received_events := by
  unfold sendDownlink
  dsimp only
  repeat' split
  all_goals rfl

/-- `_activate` never touches the duplicate-detection state. -/
theorem activate_received_events (s : ServerState) (n : LNode) (g : Option ℕ) :
    (activate s n g).received_events = s.received_events := by
  unfold activate
  rw [sendDownlink_received_events]

/-- A duplicate `event_id` makes `receive` return with no effect at all
(server.py:232-237). -/
theorem receive_duplicate_eq (s : ServerState) (eid nid gwid : ℕ)
    (rssi : Option ℚ) (fr : Option Frame) (micOk joinOk : Bool)
    (h : eid ∈ s.received_events) :
    receive s eid nid gwid rssi fr micOk joinOk = s := by
  unfold receive
  rw [if_pos h]

/-- The Join branch never touches the duplicate-detection state. -/
theorem recvJoinBranch_received_events (s : ServerState) (n : LNode)
    (g : Option ℕ) (j : Bool) :
    (recvJoinBranch s n g j).received_events = s.received_events := by
  unfold recvJoinBranch
  dsimp only
  repeat' split
  all_goals first
  | rfl
  | rw [sendDownlink_received_events]

/-- The ADR-ACK branch never touches the duplicate-detection state. -/
theorem recvAdrAck_received_events (s : ServerState) (n : LNode) (nid : ℕ) :
    (recvAdrAck s n nid).received_events = s.received_events := by
  unfold recvAdrAck
  dsimp only
  rw [sendDownlink_received_events]

/-- The ADR step never touches the duplicate-detection state. -/
theorem recvAdrApply_received_events (s : ServerState) (n1 : LNode) (nid : ℕ) :
    (recvAdrApply s n1 nid).received_events = s.received_events := by
  unfold recvAdrApply
  dsimp only
  repeat' split
  all_goals first
  | rfl
  | rw [sendDownlink_received_events]

/-- The ADR branch never touches the duplicate-detection state. -/
theorem recvAdrBranch_received_events (s : ServerState) (nid : ℕ) (r : ℚ) :
    (recvAdrBranch s nid r).received_events = s.received_events := by
  unfold recvAdrBranch
  dsimp only
  repeat' split
  all_goals first
  | rfl
  | rw [recvAdrApply_received_events]

/-- After any `receive` call the set of received events is exactly the
old set with the processed `event_id` inserted. -/
theorem receive_received_events (s : ServerState) (eid nid gwid : ℕ)
    (rssi : Option ℚ) (fr : Option Frame) (micOk joinOk : Bool) :
    (receive s eid nid gwid rssi fr micOk joinOk).received_events
      = insert eid s.received_events := by
  by_cases h : eid ∈ s.received_events
  · rw [receive_duplicate_eq s eid nid gwid rssi fr micOk joinOk h,
      Finset.insert_eq_self.mpr h]
  · unfold receive
    rw [if_neg h]
    dsimp only
    repeat' split
    all_goals first
    | rfl
    | simp [recvAdrBranch_received_events, recvAdrAck_received_events,
        activate_received_events, recvJoinBranch_received_events,
        apply_ite ServerState.received_events]

/-- C2: a second `NetworkServer.receive` call whose `event_id` is already
in `received_events` returns without any effect: the whole server state
— `packets_received`, `received_events`, `event_gateway`, nodes,
gateways, scheduler — is left unchanged, so no downlink or ADR action is
taken (the duplicate is silently dropped, server.py:232-237). -/
theorem claim_C2_duplicate_receive_no_effect (s : ServerState)
    (eid nid gwid : ℕ) (rssi : Option ℚ) (fr : Option Frame)
    (micOk joinOk : Bool) (h : eid ∈ s.received_events) :
    receive s eid nid gwid rssi fr micOk joinOk = s :=
  receive_duplicate_eq s eid nid gwid rssi fr micOk joinOk h

/-- Witness for C2 at a concrete server that already received event 0. -/
theorem claim_C2_duplicate_receive_no_effect_witness :
    (0 : ℕ) ∈ wSrvDup.received_events ∧
    receive wSrvDup 0 1 0 (some 5) none true true = wSrvDup :=
  ⟨by decide,
   claim_C2_duplicate_receive_no_effect wSrvDup 0 1 0 (some 5) none true true
     (by decide)⟩

/-- C7: `OmnetPHY.path_loss` returns 0 for every distance ≤ 0, and
`PL0 + 10·n·log10(max(d,1)) + system_loss_dB` with
`PL0 = 32.45 + 20·log10(f_MHz) − 60` for every positive distance
(omnet_phy.py:26-33). -/
theorem claim_C7_path_loss_formula (log10 : ℚ → ℚ) (ch : PLChannel) (d : ℚ) :
    (d ≤ 0 → path_loss log10 ch d = 0) ∧
    (0 < d → path_loss log10 ch d =
      32.45 + 20 * log10 (ch.frequency_hz / 1000000) - 60
        + 10 * ch.path_loss_exp * log10 (max d 1) + ch.system_loss_dB) := by
  constructor
  · intro hd
    unfold path_loss
    rw [if_pos hd]
  · intro hd
    unfold path_loss
    rw [if_neg (not_le.mpr hd)]

/-- Witness for C7 at a concrete channel, at distances 0 and 1. -/
theorem claim_C7_path_loss_formula_witness :
    ((0 : ℚ) ≤ 0 ∧ path_loss wLog10 wCh 0 = 0) ∧
    ((0 : ℚ) < 1 ∧ path_loss wLog10 wCh 1 =
      32.45 + 20 * wLog10 (wCh.frequency_hz / 1000000) - 60
        + 10 * wCh.path_loss_exp * wLog10 (max 1 1) + wCh.system_loss_dB) :=
  ⟨⟨le_refl 0, (claim_C7_path_loss_formula wLog10 wCh 0).1 (le_refl 0)⟩,
   ⟨by norm_num, (claim_C7_path_loss_formula wLog10 wCh 1).2 (by norm_num)⟩⟩

/-- C5: the dispatch order of events is lexicographic on
`(time, type, seq_id)` — `heapq.heappop` removes a least element under
the derived dataclass order, which compares `time` first, then the
`EventType` ordinal (TX_END=0 < TX_START=1 < MOBILITY=2 < RX_WINDOW=3),
then the scheduling counter `id`, with the claim-irrelevant `node_id` as
final tiebreak between events that share all three
(simulator.py:22-36, 250). -/
theorem claim_C5_dispatch_order_lexicographic :
    (EvType.TX_END.val < EvType.TX_START.val ∧
      EvType.TX_START.val < EvType.MOBILITY.val ∧
      EvType.MOBILITY.val < EvType.RX_WINDOW.val) ∧
    ∀ a b : Event, eventLt a b = true ↔
      (a.time < b.time ∨ (a.time = b.time ∧ (a.type.val < b.type.val ∨
        (a.type = b.type ∧ (a.id < b.id ∨ (a.id = b.id ∧ a.node_id < b.node_id)))))) := by
  refine ⟨by decide, fun a b => ⟨?_, ?_⟩⟩
  · intro hlt
    unfold eventLt at hlt
    split_ifs at hlt with h1 h2 h3 h4 h5 h6
    · exact Or.inl h1
    · exact Or.inr ⟨le_antisymm (not_lt.mp h2) (not_lt.mp h1), Or.inl h3⟩
    · exact Or.inr ⟨le_antisymm (not_lt.mp h2) (not_lt.mp h1),
        Or.inr ⟨evTypeVal_inj _ _ (le_antisymm (not_lt.mp h4) (not_lt.mp h3)),
          Or.inl h5⟩⟩
    · exact Or.inr ⟨le_antisymm (not_lt.mp h2) (not_lt.mp h1),
        Or.inr ⟨evTypeVal_inj _ _ (le_antisymm (not_lt.mp h4) (not_lt.mp h3)),
          Or.inr ⟨le_antisymm (not_lt.mp h6) (not_lt.mp h5), of_decide_eq_true hlt⟩⟩⟩
  · intro hr
    unfold eventLt
    rcases hr with ht | ⟨ht, hrest⟩
    · rw [if_pos ht]
    · rw [if_neg (by rw [ht]; exact lt_irrefl _),
        if_neg (by rw [ht]; exact lt_irrefl _)]
      rcases hrest with hty | ⟨hty, hid⟩
      · rw [if_pos hty]
      · rw [if_neg (by rw [hty]; exact lt_irrefl _),
          if_neg (by rw [hty]; exact lt_irrefl _)]
        rcases hid with hi | ⟨hi, hn⟩
        · rw [if_pos hi]
        · rw [if_neg (by rw [hi]; exact lt_irrefl _),
            if_neg (by rw [hi]; exact lt_irrefl _)]
          exact decide_eq_true hn

/-- Witness for C5: at equal times a TX_END fires before a TX_START even
when scheduled later (larger seq id). -/
theorem claim_C5_dispatch_order_lexicographic_witness :
    eventLt ⟨3, .TX_END, 7, 0⟩ ⟨3, .TX_START, 2, 0⟩ = true :=
  (claim_C5_dispatch_order_lexicographic.2 ⟨3, .TX_END, 7, 0⟩
    ⟨3, .TX_START, 2, 0⟩).mpr (Or.inr ⟨rfl, Or.inl (by decide)⟩)

/-- The queue-rebuilding loop of simulator.py:451-455 is a filter. -/
theorem foldl_txend_filter (l : List Event) (acc : List Event) :
    l.foldl (fun acc e => if e.type = EvType.TX_END then acc ++ [e] else acc) acc
      = acc ++ l.filter (fun e => e.type == EvType.TX_END) := by
  induction l generalizing acc with
  | nil => simp
  | cons e t ih =>
    simp only [List.foldl_cons, List.filter_cons]
    by_cases he : e.type = EvType.TX_END
    · rw [if_pos he, ih]
      simp [he]
    · rw [if_neg he, ih]
      simp [he]

/-- C6 counterexample: with the packet budget exhausted and no
retransmission left, the TX_END scheduling tail drops a pending MOBILITY
event — which is not a TX_START — from the queue, contradicting "prunes
exactly the future TX_START events, leaving pending events of every
other type in place" (simulator.py:451-455 keeps only TX_END events). -/
theorem claim_C6_counterexample :
    (⟨6, .MOBILITY, 1, 1⟩ : Event) ∈ wSimSched.event_queue ∧
    (⟨6, .MOBILITY, 1, 1⟩ : Event).type ≠ EvType.TX_START ∧
    (⟨6, .MOBILITY, 1, 1⟩ : Event) ∉ (txEndScheduleNext wSimSched 1 0 1).event_queue := by
  refine ⟨by decide, by decide, by decide⟩

/-- C6 (amended): when handling a TX_END with no retransmissions left and
the global packet budget exhausted, the simulator schedules no next
transmission and prunes from the queue every pending event that is not a
TX_END — future TX_STARTs, MOBILITY and RX_WINDOW events are all
removed, and only pending TX_END events are left in place. -/
theorem claim_C6_amended_prune_keeps_only_txend (st : SimSched) (nid : ℕ)
    (nextInterval : ℚ) (hpos : 0 < st.packets_to_send)
    (hsent : st.packets_to_send ≤ st.packets_sent) :
    (txEndScheduleNext st nid 0 nextInterval).event_queue
        = st.event_queue.filter (fun e => e.type == EvType.TX_END) ∧
    (txEndScheduleNext st nid 0 nextInterval).event_id_counter = st.event_id_counter ∧
    (txEndScheduleNext st nid 0 nextInterval).retransmissions = st.retransmissions := by
  have hcond : ¬(st.packets_to_send = 0 ∨ st.packets_sent < st.packets_to_send) := by
    omega
  unfold txEndScheduleNext
  rw [if_neg (lt_irrefl 0), if_neg hcond]
  refine ⟨?_, rfl, rfl⟩
  dsimp only
  rw [foldl_txend_filter]
  simp

/-- Witness for the amended C6 at the concrete exhausted-budget state. -/
theorem claim_C6_amended_prune_keeps_only_txend_witness :
    0 < wSimSched.packets_to_send ∧
    wSimSched.packets_to_send ≤ wSimSched.packets_sent ∧
    (txEndScheduleNext wSimSched 1 0 1).event_queue
      = wSimSched.event_queue.filter (fun e => e.type == EvType.TX_END) :=
  ⟨by decide, by decide,
   (claim_C6_amended_prune_keeps_only_txend wSimSched 1 1 (by decide) (by decide)).1⟩

/-- Folding the gateway reports of one TX_END through `receive` inserts
exactly the TX_END's own event id (once some gateway reported). -/
theorem foldReceive_received_events (reports : List C4Report) (sv : ServerState)
    (e nid : ℕ) :
    (reports.foldl (fun sv r => receive sv e nid r.gw r.rssi r.frame r.micOk r.joinOk)
        sv).received_events
      = if reports.isEmpty then sv.received_events
        else insert e sv.received_events := by
  induction reports generalizing sv with
  | nil => simp
  | cons r rs ih =>
    simp [ih, receive_received_events, Finset.Insert.comm]

/-- One step of a run preserves the delivery-count invariant. -/
theorem c4Step_inv (s : C4State) (i : C4Input) (h : c4Inv s) :
    c4Inv (c4Step s i) := by
  obtain ⟨hcard, hpen, hrec, hpenlt⟩ := h
  cases i with
  | txStart =>
    refine ⟨hcard, ?_, ?_, ?_⟩
    · intro e he
      rcases Finset.mem_insert.mp he with rfl | he'
      · intro habs
        exact lt_irrefl _ (hrec _ habs)
      · exact hpen _ he'
    · intro e he
      exact Nat.lt_succ_of_lt (hrec _ he)
    · intro e he
      rcases Finset.mem_insert.mp he with rfl | he'
      · exact Nat.lt_succ_self _
      · exact Nat.lt_succ_of_lt (hpenlt _ he')
  | txEnd e nid reports =>
    simp only [c4Step]
    by_cases hp : e ∈ s.pending
    · rw [if_pos hp]
      have hnotrec : e ∉ s.server.received_events := hpen _ hp
      have hrec' := foldReceive_received_events reports s.server e nid
      by_cases hemp : reports.isEmpty
      · rw [hemp, if_pos rfl] at hrec'
        have hre : reports = [] := List.isEmpty_iff.mp hemp
        subst hre
        refine ⟨?_, ?_, ?_, ?_⟩ <;> simp only [List.foldl_nil]
        · rw [if_neg hnotrec, hcard, Nat.add_zero]
        · intro x hx
          exact hpen _ (Finset.mem_of_mem_erase hx)
        · exact hrec
        · intro x hx
          exact hpenlt _ (Finset.mem_of_mem_erase hx)
      · rw [if_neg hemp] at hrec'
        have hmem : e ∈ (reports.foldl
            (fun sv r => receive sv e nid r.gw r.rssi r.frame r.micOk r.joinOk)
            s.server).received_events := by
          rw [hrec']
          exact Finset.mem_insert_self _ _
        refine ⟨?_, ?_, ?_, ?_⟩
        · rw [if_pos hmem]
          simp only [hrec']
          rw [Finset.card_insert_of_not_mem hnotrec, hcard]
        · intro x hx
          rw [hrec']
          intro habs
          rcases Finset.mem_insert.mp habs with rfl | hx'
          · exact (Finset.not_mem_erase _ _) hx
          · exact hpen _ (Finset.mem_of_mem_erase hx) hx'
        · intro x hx
          rw [hrec'] at hx
          rcases Finset.mem_insert.mp hx with rfl | hx'
          · exact hpenlt _ hp
          · exact hrec _ hx'
        · intro x hx
          exact hpenlt _ (Finset.mem_of_mem_erase hx)
    · rw [if_neg hp]
      exact ⟨hcard, hpen, hrec, hpenlt⟩
  | other => exact ⟨hcard, hpen, hrec, hpenlt⟩

/-- The invariant holds along any fold of run inputs. -/
theorem c4Inv_foldl (l : List C4Input) (s : C4State) (h : c4Inv s) :
    c4Inv (l.foldl c4Step s) := by
  induction l generalizing s with
  | nil => exact h
  | cons i t ih => exact ih _ (c4Step_inv s i h)

/-- C4: at every point of a run — after any sequence of dispatched
events, whatever the gateways reported — the number of event ids in the
network server's `received_events` set equals the simulator's
`packets_delivered` counter: a packet is counted delivered at its TX_END
exactly when some gateway delivered it to the server
(simulator.py:361-395, server.py:232-241). -/
theorem claim_C4_received_card_eq_delivered (inputs : List C4Input)
    (nodes : List LNode) (gws : List LGateway) (adr : Bool) (noise : ℚ) :
    (inputs.foldl c4Step (c4Init nodes gws adr noise)).server.received_events.card
      = (inputs.foldl c4Step (c4Init nodes gws adr noise)).packets_delivered := by
  have h0 : c4Inv (c4Init nodes gws adr noise) := by
    refine ⟨rfl, ?_, ?_, ?_⟩ <;> intro e he <;> simp [c4Init, mkServer] at he
  exact (c4Inv_foldl inputs _ h0).1

/-- The accumulator of a `max` fold is a lower bound of the result, and
so is every list element. -/
theorem le_foldl_max (t : List ℚ) (a : ℚ) :
    a ≤ t.foldl max a ∧ ∀ x ∈ t, x ≤ t.foldl max a := by
  induction t generalizing a with
  | nil => simp
  | cons b t ih =>
    simp only [List.foldl_cons]
    obtain ⟨h1, h2⟩ := ih (max a b)
    refine ⟨le_trans (le_max_left a b) h1, ?_⟩
    intro x hx
    rcases List.mem_cons.mp hx with rfl | hx'
    · exact le_trans (le_max_right a x) h1
    · exact h2 x hx'

/-- A `max` fold returns its accumulator or a list element. -/
theorem foldl_max_mem (t : List ℚ) (a : ℚ) :
    t.foldl max a = a ∨ t.foldl max a ∈ t := by
  induction t generalizing a with
  | nil => exact Or.inl rfl
  | cons b t ih =>
    simp only [List.foldl_cons]
    rcases ih (max a b) with h | h
    · rcases le_total a b with hab | hab
      · right
        rw [h, max_eq_right hab]
        exact List.mem_cons_self b t
      · left
        rw [h, max_eq_left hab]
    · exact Or.inr (List.mem_cons_of_mem b h)

/-- Every element is at most `listMax`. -/
theorem le_listMax (l : List ℚ) (x : ℚ) (hx : x ∈ l) : x ≤ listMax l := by
  cases l with
  | nil => cases hx
  | cons a t =>
    rcases List.mem_cons.mp hx with rfl | hx'
    · exact (le_foldl_max t x).1
    · exact (le_foldl_max t a).2 x hx'

/-- `listMax` of a non-empty list is an element of it. -/
theorem listMax_mem (l : List ℚ) (h : l ≠ []) : listMax l ∈ l := by
  cases l with
  | nil => exact absurd rfl h
  | cons a t =>
    show List.foldl max a t ∈ a :: t
    rcases foldl_max_mem t a with he | hm
    · rw [he]
      exact List.mem_cons_self a t
    · exact List.mem_cons_of_mem a hm

/-- `listMax` only depends on the multiset of elements. -/
theorem listMax_perm (l1 l2 : List ℚ) (h : List.Perm l1 l2) :
    listMax l1 = listMax l2 := by
  rcases eq_or_ne l1 [] with rfl | h1
  · rw [h.symm.eq_nil]
  · have h2 : l2 ≠ [] := fun he => h1 ((he ▸ h).eq_nil)
    exact le_antisymm (le_listMax l2 _ (h.subset (listMax_mem l1 h1)))
      (le_listMax l1 _ (h.symm.subset (listMax_mem l2 h2)))

/-- The sorted index list is a permutation of all indices. -/
theorem captureOrder_perm (l : List ℚ) :
    List.Perm (captureOrder l) (List.finRange l.length) :=
  List.perm_insertionSort _ _

/-- The sorted index list is sorted by decreasing RSSI. -/
theorem captureOrder_sorted (l : List ℚ) :
    List.Sorted (captureRel l) (captureOrder l) :=
  List.sorted_insertionSort _ _

theorem captureOrder_length (l : List ℚ) :
    (captureOrder l).length = l.length := by
  rw [(captureOrder_perm l).length_eq, List.length_finRange]

/-- Reading the RSSI list along the sorted index list permutes it. -/
theorem captureOrder_map_get (l : List ℚ) :
    List.Perm ((captureOrder l).map l.get) l := by
  have h := (captureOrder_perm l).map l.get
  rwa [List.finRange_map_get] at h

/-- The head of the sorted index list attains the maximum RSSI. -/
theorem captureOrder_head_max (l : List ℚ) (i : Fin l.length)
    (rest : List (Fin l.length)) (h : captureOrder l = i :: rest) :
    l.get i = listMax l := by
  have hne : l ≠ [] := List.ne_nil_of_length_pos i.pos
  refine le_antisymm (le_listMax l _ (l.get_mem _ _)) ?_
  have hml : listMax l ∈ (captureOrder l).map l.get :=
    (captureOrder_map_get l).symm.subset (listMax_mem l hne)
  obtain ⟨k, hk, hkeq⟩ := List.mem_map.mp hml
  rw [h] at hk
  rcases List.mem_cons.mp hk with rfl | hk'
  · exact le_of_eq hkeq.symm
  · have hr : captureRel l i k := by
      have hs := captureOrder_sorted l
      rw [h] at hs
      exact List.rel_of_sorted_cons hs k hk'
    exact hkeq ▸ hr

/-- The second entry of the sorted index list attains the maximum of the
RSSI list with one copy of the maximum removed (the runner-up value,
counting multiplicity). -/
theorem captureOrder_second_max (l : List ℚ) (i j : Fin l.length)
    (rest : List (Fin l.length)) (h : captureOrder l = i :: j :: rest) :
    l.get j = listMax (l.erase (l.get i)) := by
  have hperm : List.Perm (l.get i :: l.get j :: rest.map l.get) l := by
    have hp := captureOrder_map_get l
    rw [h] at hp
    simpa using hp
  have hmem : l.get i ∈ l := l.get_mem _ _
  have h3 : List.Perm (l.get j :: rest.map l.get) (l.erase (l.get i)) :=
    (hperm.trans (List.perm_cons_erase hmem)).cons_inv
  have hsorted : List.Sorted (captureRel l) (j :: rest) := by
    have hs := captureOrder_sorted l
    rw [h] at hs
    exact hs.of_cons
  have hmax : listMax (l.get j :: rest.map l.get) = l.get j := by
    refine le_antisymm ?_ (le_listMax _ _ (List.mem_cons_self _ _))
    have hmm := listMax_mem (l.get j :: rest.map l.get) (by simp)
    rcases List.mem_cons.mp hmm with he | hm
    · exact le_of_eq he
    · obtain ⟨k, hk, hkeq⟩ := List.mem_map.mp hm
      exact hkeq ▸ List.rel_of_sorted_cons hsorted k hk
  rw [← hmax]
  exact listMax_perm _ _ h3

/-- `capture` when the sorted index list has at least two entries. -/
theorem capture_cons2 (thr : ℚ) (l : List ℚ) (i j : Fin l.length)
    (rest : List (Fin l.length)) (h : captureOrder l = i :: j :: rest) :
    capture thr l =
      if thr ≤ l.get i - l.get j then
        (List.replicate l.length false).set i.val true
      else List.replicate l.length false := by
  have hne : l ≠ [] := List.ne_nil_of_length_pos i.pos
  unfold capture
  rw [if_neg (by simpa [List.isEmpty_iff] using hne), h]

/-- `capture` when the sorted index list is a singleton. -/
theorem capture_cons1 (thr : ℚ) (l : List ℚ) (i : Fin l.length)
    (h : captureOrder l = [i]) :
    capture thr l = (List.replicate l.length false).set i.val true := by
  have hne : l ≠ [] := List.ne_nil_of_length_pos i.pos
  unfold capture
  rw [if_neg (by simpa [List.isEmpty_iff] using hne), h]

/-- A list with at least 2 elements yields at least two sorted indices. -/
theorem captureOrder_two (l : List ℚ) (h2 : 2 ≤ l.length) :
    ∃ i j rest, captureOrder l = i :: j :: rest := by
  have hl := captureOrder_length l
  cases c : captureOrder l with
  | nil =>
    rw [c] at hl
    simp at hl
    omega
  | cons i t =>
    cases t with
    | nil =>
      rw [c] at hl
      simp at hl
      omega
    | cons j rest => exact ⟨i, j, rest, rfl⟩

/-- Case analysis on `capture`: empty input, a one-hot winner at an
index attaining the maximum, or all losers. -/
theorem capture_cases (thr : ℚ) (l : List ℚ) :
    (capture thr l = [] ∧ l = []) ∨
    (∃ i : Fin l.length, l.get i = listMax l ∧
      capture thr l = (List.replicate l.length false).set i.val true) ∨
    capture thr l = List.replicate l.length false := by
  rcases c : captureOrder l with _ | ⟨i, _ | ⟨j, rest⟩⟩
  · have hl := captureOrder_length l
    rw [c] at hl
    have hnil : l = [] := List.length_eq_zero.mp (by simpa using hl.symm)
    subst hnil
    exact Or.inl ⟨rfl, rfl⟩
  · exact Or.inr (Or.inl ⟨i, captureOrder_head_max l i [] c, capture_cons1 thr l i c⟩)
  · by_cases hthr : thr ≤ l.get i - l.get j
    · refine Or.inr (Or.inl ⟨i, captureOrder_head_max l i (j :: rest) c, ?_⟩)
      rw [capture_cons2 thr l i j rest c, if_pos hthr]
    · refine Or.inr (Or.inr ?_)
      rw [capture_cons2 thr l i j rest c, if_neg hthr]

/-- `getD` on a replicated `false` list is `false`. -/
theorem getD_replicate_false (n k : ℕ) :
    (List.replicate n false).getD k false = false := by
  induction n generalizing k with
  | zero => simp
  | succ n ih =>
    rw [List.replicate_succ]
    cases k with
    | zero => rfl
    | succ k => exact ih k

/-- A `true` read out of a one-hot list locates the set position. -/
theorem getD_set_replicate_true (n i k : ℕ)
    (h : ((List.replicate n false).set i true).getD k false = true) : k = i := by
  induction n generalizing i k with
  | zero => simp at h
  | succ n ih =>
    rw [List.replicate_succ] at h
    cases i with
    | zero =>
      cases k with
      | zero => rfl
      | succ k =>
        rw [List.set_cons_zero] at h
        exact absurd h (by simp [getD_replicate_false n k])
    | succ i =>
      cases k with
      | zero => simp at h
      | succ k =>
        rw [List.set_cons_succ] at h
        exact congrArg Nat.succ (ih i k h)

/-- A one-hot list holds at most one `true`. -/
theorem count_true_set_replicate (n i : ℕ) :
    ((List.replicate n false).set i true).count true ≤ 1 := by
  induction n generalizing i with
  | zero => simp
  | succ n ih =>
    rw [List.replicate_succ]
    cases i with
    | zero =>
      rw [List.set_cons_zero]
      simp [List.count_cons, List.count_replicate]
    | succ i =>
      rw [List.set_cons_succ]
      simpa [List.count_cons] using ih i

/-- C9: for every input list `OmnetPHY.capture` returns a list of the
same length with at most one `true`, and any `true` sits at an index
attaining the maximum RSSI; a one-element list is always captured and
the empty list yields `[]` (omnet_phy.py:101-112). -/
theorem claim_C9_capture_invariants (thr : ℚ) (l : List ℚ) :
    (capture thr l).length = l.length ∧
    (capture thr l).count true ≤ 1 ∧
    (∀ k (hk : k < l.length), (capture thr l).getD k false = true →
        l.get ⟨k, hk⟩ = listMax l) ∧
    (∀ x : ℚ, capture thr [x] = [true]) ∧
    capture thr [] = [] := by
  refine ⟨?_, ?_, ?_, fun x => rfl, rfl⟩
  · rcases capture_cases thr l with ⟨hc, hl⟩ | ⟨i, _, hc⟩ | hc
    · subst hl
      rfl
    · rw [hc]
      simp
    · rw [hc]
      simp
  · rcases capture_cases thr l with ⟨hc, _⟩ | ⟨i, _, hc⟩ | hc
    · rw [hc]
      simp
    · rw [hc]
      exact count_true_set_replicate _ _
    · rw [hc]
      simp [List.count_replicate]
  · intro k hk htrue
    rcases capture_cases thr l with ⟨hc, hl⟩ | ⟨i, hi, hc⟩ | hc
    · subst hl
      simp at hk
    · rw [hc] at htrue
      have hk' : k = i.val := getD_set_replicate_true _ _ _ htrue
      have hfin : (⟨k, hk⟩ : Fin l.length) = i := Fin.ext hk'
      rw [hfin]
      exact hi
    · rw [hc, getD_replicate_false] at htrue
      cases htrue

/-- Witness for C9 on the concrete list `[3, 5]` with threshold 1: the
single `true` sits at index 1, which attains the maximum. -/
theorem claim_C9_capture_invariants_witness :
    (capture 1 [3, 5]).getD 1 false = true ∧
    ([3, 5] : List ℚ).get ⟨1, by decide⟩ = listMax [3, 5] :=
  ⟨by with_unfolding_all decide,
   (claim_C9_capture_invariants 1 [3, 5]).2.2.1 1 (by decide)
     (by with_unfolding_all decide)⟩

/-- C1 counterexample: with a capture threshold of 0 dB, two signals
that tie at the strongest RSSI do *not* all lose — the first of the tied
signals wins, because the code's test
`rssi[order[0]] - rssi[order[1]] >= capture_threshold_dB` reads `0 ≥ 0`.
So "on a tie … every signal loses" fails as stated unless the threshold
is positive. -/
theorem claim_C1_counterexample :
    capture 0 [5, 5] = [true, false] ∧
    capture 0 [5, 5] ≠ List.replicate ([5, 5] : List ℚ).length false :=
  ⟨by with_unfolding_all decide, by with_unfolding_all decide⟩

/-- C1 (amended): for every list of at least two RSSI values and every
*positive* `capture_threshold_dB`, the single strongest signal is the
only winner iff its RSSI exceeds the second strongest (the maximum of
the list with one copy of the strongest removed) by at least the
threshold; on a tie or a sub-threshold lead every signal loses
(omnet_phy.py:101-112). -/
theorem claim_C1_amended_capture_law (thr : ℚ) (l : List ℚ)
    (h2 : 2 ≤ l.length) (hthr : 0 < thr) :
    (thr ≤ listMax l - listMax (l.erase (listMax l)) →
      capture thr l =
        (List.replicate l.length false).set (l.indexOf (listMax l)) true) ∧
    (listMax l - listMax (l.erase (listMax l)) < thr →
      capture thr l = List.replicate l.length false) := by
  obtain ⟨i, j, rest, hc⟩ := captureOrder_two l h2
  have hmax : l.get i = listMax l := captureOrder_head_max l i (j :: rest) hc
  have hsecond : l.get j = listMax (l.erase (listMax l)) := by
    rw [← hmax]
    exact captureOrder_second_max l i j rest hc
  constructor
  · intro hlead
    have hm2 : listMax (l.erase (listMax l)) < listMax l := by linarith
    have hnotin : listMax l ∉ l.erase (listMax l) := fun hmem =>
      absurd (le_listMax _ _ hmem) (not_le.mpr hm2)
    have hne : l ≠ [] := by
      intro he
      rw [he] at h2
      simp at h2
    have hcount : l.count (listMax l) ≤ 1 := by
      by_contra hcnt
      push_neg at hcnt
      have hpos : 0 < (l.erase (listMax l)).count (listMax l) := by
        rw [List.count_erase_self]
        omega
      exact hnotin (List.count_pos_iff.mp hpos)
    have hmem : listMax l ∈ l := listMax_mem l hne
    have hlt : l.indexOf (listMax l) < l.length := List.indexOf_lt_length.mpr hmem
    have hidx : i.val = l.indexOf (listMax l) := by
      by_contra hne'
      have hgetidx : l.get ⟨l.indexOf (listMax l), hlt⟩ = listMax l :=
        List.indexOf_get hlt
      have hfne : i ≠ (⟨l.indexOf (listMax l), hlt⟩ : Fin l.length) :=
        fun he => hne' (congrArg Fin.val he)
      have hdup : l.Duplicate (listMax l) := by
        rw [List.duplicate_iff_exists_distinct_get]
        rcases lt_or_gt_of_ne hfne with h | h
        · exact ⟨i, ⟨l.indexOf (listMax l), hlt⟩, h, hmax.symm, hgetidx.symm⟩
        · exact ⟨⟨l.indexOf (listMax l), hlt⟩, i, h, hgetidx.symm, hmax.symm⟩
      have := List.duplicate_iff_two_le_count.mp hdup
      omega
    rw [capture_cons2 thr l i j rest hc,
      if_pos (by rw [hmax, hsecond]; exact hlead), hidx]
  · intro hlead
    rw [capture_cons2 thr l i j rest hc, if_neg ?_]
    rw [hmax, hsecond]
    exact not_le.mpr hlead

/-- Witness for the amended C1 on the concrete list `[3, 5]` with
threshold 1 (lead 2 ≥ 1): only index 1 wins. -/
theorem claim_C1_amended_capture_law_witness :
    2 ≤ ([3, 5] : List ℚ).length ∧ (0 : ℚ) < 1 ∧
    capture 1 [3, 5] =
      (List.replicate ([3, 5] : List ℚ).length false).set
        (([3, 5] : List ℚ).indexOf (listMax [3, 5])) true :=
  ⟨by decide, by decide,
   (claim_C1_amended_capture_law 1 [3, 5] (by decide) (by decide)).1
     (by with_unfolding_all decide)⟩

/-- The node found for an id carries that id. -/
theorem findNode_id (ns : List LNode) (nid : ℕ) (n : LNode)
    (h : findNode ns nid = some n) : n.id = nid := by
  have := List.find?_some h
  simpa using this

/-- Mutating the object `findNode` returned updates what `findNode`
subsequently sees. -/
theorem findNode_updateNode (ns : List LNode) (nid : ℕ) (n m : LNode)
    (hfind : findNode ns nid = some n) (hm : m.id = n.id) :
    findNode (updateNode ns m) nid = some m := by
  induction ns with
  | nil => simp [findNode] at hfind
  | cons a t ih =>
    have hnid : n.id = nid := findNode_id _ _ _ hfind
    by_cases ha : a.id = nid
    · have hsome : findNode (a :: t) nid = some a := by
        unfold findNode
        rw [List.find?_cons_of_pos _ (by simp [ha])]
      have hha : a = n := by
        rw [hsome] at hfind
        exact Option.some_injective _ hfind
      unfold updateNode
      rw [if_pos (by rw [hha, hm])]
      unfold findNode
      rw [List.find?_cons_of_pos _ (by simp [hm, hnid])]
    · have hfind' : findNode t nid = some n := by
        unfold findNode at hfind ⊢
        rwa [List.find?_cons_of_neg _ (by simp [ha])] at hfind
      unfold updateNode
      rw [if_neg (by rw [hm, hnid]; exact ha)]
      unfold findNode
      rw [List.find?_cons_of_neg _ (by simp [ha])]
      exact ih hfind'

/-- `send_downlink` with no usable gateway is a no-op (server.py:92-94). -/
theorem sendDownlink_no_gateway (s : ServerState) (n : LNode)
    (payload : Payload) (confirmed : Bool) (adr : Option (ℕ × ℚ × ℕ × ℕ))
    (rq : Bool) (t : Option ℚ) (hgws : s.gateways = []) :
    sendDownlink s n payload confirmed adr rq t none = s := by
  unfold sendDownlink
  rw [hgws]
  rfl

/-- When a gateway resolves, `send_downlink` updates the node list by
mutating the passed node: `fcnt_down` and then `downlink_pending` are
incremented (server.py:128, 171-174). -/
theorem sendDownlink_nodes (s : ServerState) (n : LNode) (payload : Payload)
    (confirmed : Bool) (adr : Option (ℕ × ℚ × ℕ × ℕ)) (rq : Bool)
    (t : Option ℚ) (g : Option ℕ) (gwId : ℕ)
    (hg : (match g with
           | some x => some x
           | none => s.gateways.head?.map LGateway.id) = some gwId) :
    (sendDownlink s n payload confirmed adr rq t g).nodes =
      updateNode (updateNode s.nodes { n with fcnt_down := n.fcnt_down + 1 })
        { n with fcnt_down := n.fcnt_down + 1,
                 downlink_pending := n.downlink_pending + 1 } := by
  unfold sendDownlink
  rw [hg]
  dsimp only
  repeat' split
  all_goals rfl

/-- C10: `NetworkServer.send_downlink` called with no gateway argument
while the server's gateway list is empty returns without any effect (no
frame is built, buffered or scheduled; `fcnt_down` and
`downlink_pending` unchanged — the whole state is unchanged); in every
other case the call increments the node's `fcnt_down` by exactly one
(server.py:73-174). -/
theorem claim_C10_send_downlink_fcnt (s : ServerState) (n : LNode)
    (payload : Payload) (confirmed : Bool) (adr : Option (ℕ × ℚ × ℕ × ℕ))
    (rq : Bool) (t : Option ℚ) (g : Option ℕ)
    (hfind : findNode s.nodes n.id = some n) :
    (g = none → s.gateways = [] →
      sendDownlink s n payload confirmed adr rq t g = s) ∧
    ((g ≠ none ∨ s.gateways ≠ []) →
      (findNode (sendDownlink s n payload confirmed adr rq t g).nodes n.id).map
          LNode.fcnt_down = some (n.fcnt_down + 1)) := by
  constructor
  · rintro rfl hgws
    exact sendDownlink_no_gateway s n payload confirmed adr rq t hgws
  · intro hsome
    have hex : ∃ gwId, (match g with
        | some x => some x
        | none => s.gateways.head?.map LGateway.id) = some gwId := by
      cases g with
      | some x => exact ⟨x, rfl⟩
      | none =>
        rcases hsome with hg | hgws
        · exact absurd rfl hg
        · cases hgw : s.gateways with
          | nil => exact absurd hgw hgws
          | cons g0 gs => exact ⟨g0.id, rfl⟩
    obtain ⟨gwId, hg⟩ := hex
    rw [sendDownlink_nodes s n payload confirmed adr rq t g gwId hg]
    have h1 : findNode (updateNode s.nodes { n with fcnt_down := n.fcnt_down + 1 })
        n.id = some { n with fcnt_down := n.fcnt_down + 1 } :=
      findNode_updateNode s.nodes n.id n _ hfind rfl
    have h2 := findNode_updateNode _ n.id _
      ({ n with fcnt_down := n.fcnt_down + 1,
                downlink_pending := n.downlink_pending + 1 }) h1 rfl
    rw [h2]
    rfl

/-- Witness for C10: on a gateway-less server the call is a no-op; with
one gateway the node's `fcnt_down` goes from 0 to 1. -/
theorem claim_C10_send_downlink_fcnt_witness :
    findNode wSrvNoGw.nodes 1 = some wNodeA ∧
    sendDownlink wSrvNoGw wNodeA (.raw []) false none false none none = wSrvNoGw ∧
    (findNode (sendDownlink wSrvOneGw wNodeA (.raw []) false none false none
        none).nodes 1).map LNode.fcnt_down = some (wNodeA.fcnt_down + 1) :=
  ⟨rfl,
   (claim_C10_send_downlink_fcnt wSrvNoGw wNodeA (.raw []) false none false none
      none rfl).1 rfl rfl,
   (claim_C10_send_downlink_fcnt wSrvOneGw wNodeA (.raw []) false none false none
      none rfl).2 (Or.inr (by simp [wSrvOneGw, mkServer]))⟩

/-- `schedSetList` stores the new sequence under the node's key. -/
theorem find?_schedSetList (q : List (ℕ × List SchedEntry)) (nid : ℕ)
    (l : List SchedEntry) :
    (schedSetList q nid l).find? (fun p => p.1 == nid) = some (nid, l) := by
  induction q with
  | nil => simp [schedSetList]
  | cons p ps ih =>
    unfold schedSetList
    by_cases h : p.1 = nid
    · rw [if_pos h]
      simp
    · rw [if_neg h]
      rw [List.find?_cons_of_neg _ (by simp [h])]
      exact ih

/-- Reading back a just-written per-node sequence. -/
theorem schedGet_schedSet (sch : Scheduler) (nid : ℕ) (l : List SchedEntry) :
    schedGet (schedSet sch nid l) nid = l := by
  unfold schedGet schedSet
  rw [find?_schedSetList]
  rfl

/-- The `pop_ready` loop of `deliver_scheduled` empties exactly the ready
prefix of the node's queue, buffering each frame at its gateway in
order. -/
theorem deliverLoop_spec (l : List SchedEntry) (s : ServerState) (nid : ℕ)
    (now : ℚ) (hq : schedGet s.scheduler nid = l) :
    schedGet (deliverLoop l.length s nid now).scheduler nid
      = l.dropWhile (fun e => decide (e.time ≤ now)) ∧
    (deliverLoop l.length s nid now).gateways
      = (l.takeWhile (fun e => decide (e.time ≤ now))).foldl
          (fun gws e => gwsBuffer gws e.gw nid e.frame) s.gateways := by
  induction l generalizing s with
  | nil =>
    refine ⟨?_, ?_⟩
    · show schedGet (deliverLoop 0 s nid now).scheduler nid = _
      simpa using hq
    · show (deliverLoop 0 s nid now).gateways = _
      rfl
  | cons e t ih =>
    by_cases he : e.time ≤ now
    · have hpop : schedPopReady s.scheduler nid now =
          (some (e.frame, e.gw), schedSet s.scheduler nid t) := by
        unfold schedPopReady
        rw [hq]
        dsimp only
        rw [if_pos he]
      have hstep : deliverLoop (e :: t).length s nid now =
          deliverLoop t.length
            { s with scheduler := schedSet s.scheduler nid t,
                     gateways := gwsBuffer s.gateways e.gw nid e.frame } nid now := by
        show deliverLoop (t.length + 1) s nid now = _
        simp only [deliverLoop]
        rw [hpop]
      rw [hstep]
      obtain ⟨h1, h2⟩ := ih
        { s with scheduler := schedSet s.scheduler nid t,
                 gateways := gwsBuffer s.gateways e.gw nid e.frame }
        (schedGet_schedSet s.scheduler nid t)
      refine ⟨?_, ?_⟩
      · rw [h1, List.dropWhile_cons]
        simp [he]
      · rw [h2, List.takeWhile_cons]
        simp [he]
    · have hpop : schedPopReady s.scheduler nid now = (none, s.scheduler) := by
        unfold schedPopReady
        rw [hq]
        dsimp only
        rw [if_neg he]
      have hstep : deliverLoop (e :: t).length s nid now = s := by
        show deliverLoop (t.length + 1) s nid now = s
        simp only [deliverLoop]
        rw [hpop]
      rw [hstep]
      refine ⟨?_, ?_⟩
      · rw [List.dropWhile_cons]
        simpa [he] using hq
      · rw [List.takeWhile_cons]
        simp [he]

/-- On a time-sorted queue the ready prefix is all ready entries. -/
theorem takeWhile_eq_filter_sorted (c : ℚ) (l : List SchedEntry)
    (hs : List.Sorted (fun a b : SchedEntry => a.time ≤ b.time) l) :
    l.takeWhile (fun e => decide (e.time ≤ c))
      = l.filter (fun e => decide (e.time ≤ c)) := by
  induction l with
  | nil => rfl
  | cons e t ih =>
    rw [List.takeWhile_cons, List.filter_cons]
    by_cases he : e.time ≤ c
    · simp [he, ih hs.of_cons]
    · have hnil : t.filter (fun e => decide (e.time ≤ c)) = [] := by
        rw [List.filter_eq_nil_iff]
        intro x hx
        have hxt := List.rel_of_sorted_cons hs x hx
        simp only [decide_eq_true_eq]
        intro hxc
        exact he (le_trans hxt hxc)
      simp [he, hnil]

/-- On a time-sorted queue the unready suffix is all unready entries. -/
theorem dropWhile_eq_filter_sorted (c : ℚ) (l : List SchedEntry)
    (hs : List.Sorted (fun a b : SchedEntry => a.time ≤ b.time) l) :
    l.dropWhile (fun e => decide (e.time ≤ c))
      = l.filter (fun e => decide (¬e.time ≤ c)) := by
  induction l with
  | nil => rfl
  | cons e t ih =>
    rw [List.dropWhile_cons, List.filter_cons]
    by_cases he : e.time ≤ c
    · simp [he, ih hs.of_cons]
    · have hall : t.filter (fun e => decide (c < e.time)) = t := by
        rw [List.filter_eq_self]
        intro x hx
        have hxt := List.rel_of_sorted_cons hs x hx
        simp only [decide_eq_true_eq]
        exact lt_of_lt_of_le (not_le.mp he) hxt
      simp [he]
      exact hall.symm

/-- C8: when the head of a node's (time-sorted) scheduler queue is
overdue by more than 100 ms, `NetworkServer.deliver_scheduled` first
drains that head at its own scheduled time and then pops every frame
with deliver time ≤ `current_time`, buffering each popped frame — in
queue order — into its gateway's per-node down-link buffer; exactly the
frames scheduled after `current_time` remain queued
(server.py:183-194). -/
theorem claim_C8_deliver_scheduled_overdue (s : ServerState) (nid : ℕ)
    (now : ℚ) (e0 : SchedEntry) (q : List SchedEntry)
    (hq : schedGet s.scheduler nid = e0 :: q)
    (hsorted : List.Sorted (fun a b : SchedEntry => a.time ≤ b.time) (e0 :: q))
    (hoverdue : e0.time < now - 1/10) :
    DeliverOutcome s nid now (e0 :: q) := by
  have he0 : e0.time ≤ now := by linarith
  have hnt : schedNextTime s.scheduler nid = some e0.time := by
    unfold schedNextTime
    rw [hq]
    rfl
  have hpop : schedPopReady s.scheduler nid e0.time =
      (some (e0.frame, e0.gw), schedSet s.scheduler nid q) := by
    unfold schedPopReady
    rw [hq]
    dsimp only
    rw [if_pos (le_refl _)]
  have hds : deliverScheduled s nid now =
      deliverLoop q.length
        { s with scheduler := schedSet s.scheduler nid q,
                 gateways := gwsBuffer s.gateways e0.gw nid e0.frame } nid now := by
    unfold deliverScheduled
    rw [hnt]
    dsimp only
    rw [if_pos hoverdue, hpop]
    dsimp only
    rw [schedGet_schedSet]
  obtain ⟨h1, h2⟩ := deliverLoop_spec q
    { s with scheduler := schedSet s.scheduler nid q,
             gateways := gwsBuffer s.gateways e0.gw nid e0.frame } nid now
    (schedGet_schedSet _ _ _)
  refine ⟨?_, ?_, ?_⟩
  · rw [List.filter_cons]
    simp [he0]
  · rw [hds, h1, dropWhile_eq_filter_sorted now q hsorted.of_cons,
      List.filter_cons]
    simp [he0]
  · rw [hds, h2, takeWhile_eq_filter_sorted now q hsorted.of_cons,
      List.filter_cons]
    simp [he0]

/-- Witness for C8 at a concrete sorted queue `[0, 1, 3]` with
`current_time = 2`: the head (overdue by 2 s) and the entry at time 1
are buffered, the entry at time 3 stays queued. -/
theorem claim_C8_deliver_scheduled_overdue_witness :
    schedGet wSrvSched.scheduler 1 = wEntries ∧
    (⟨0, 0, wFrame, 0⟩ : SchedEntry).time < 2 - 1/10 ∧
    DeliverOutcome wSrvSched 1 2 wEntries :=
  ⟨rfl, by with_unfolding_all decide,
   claim_C8_deliver_scheduled_overdue wSrvSched 1 2 ⟨0, 0, wFrame, 0⟩
     (wEntries.tail) rfl (by decide) (by with_unfolding_all decide)⟩

/-- The `nstep > 0` mutation loop computes the closed form: lower SF to
7 first, then raise the power index. -/
theorem adrLoopUp_eq (k : ℕ) : ∀ (sf p : ℕ) (pw : ℚ),
    adrLoopUp k sf p pw = adrUpSpec k sf p pw := by
  induction k with
  | zero =>
    intro sf p pw
    simp [adrLoopUp, adrUpSpec]
  | succ k ih =>
    intro sf p pw
    unfold adrLoopUp
    by_cases hguard : 7 < sf ∨ p < pMaxIdx
    · rw [if_pos hguard]
      by_cases hsf : 7 < sf
      · rw [if_pos hsf, ih]
        simp only [adrUpSpec, pMaxIdx, Prod.mk.injEq]
        refine ⟨by omega, by omega, ?_⟩
        have e2 : k - min k (sf - 1 - 7) = k + 1 - min (k + 1) (sf - 7) := by omega
        rw [e2]
      · have hp : p < pMaxIdx := hguard.resolve_left hsf
        rw [if_neg hsf, ih]
        simp only [adrUpSpec, pMaxIdx, Prod.mk.injEq] at *
        refine ⟨by omega, by omega, ?_⟩
        have hc : ¬min (k + 1 - min (k + 1) (sf - 7)) (7 - p) = 0 := by omega
        rw [if_neg hc]
        by_cases hz : min (k - min k (sf - 7)) (7 - (p + 1)) = 0
        · rw [if_pos hz]
          exact congrArg txPowerIndexToDbm (by omega)
        · rw [if_neg hz]
          exact congrArg txPowerIndexToDbm (by omega)
    · rw [if_neg hguard]
      push_neg at hguard
      obtain ⟨hsf, hp⟩ := hguard
      simp only [adrUpSpec, pMaxIdx, Prod.mk.injEq] at *
      refine ⟨by omega, by omega, ?_⟩
      rw [if_pos (by omega)]

/-- The `nstep < 0` mutation loop computes the closed form: lower the
power index to 0 first, then raise SF to 12. -/
theorem adrLoopDown_eq (k : ℕ) : ∀ (sf p : ℕ) (pw : ℚ),
    adrLoopDown k sf p pw = adrDownSpec k sf p pw := by
  induction k with
  | zero =>
    intro sf p pw
    simp [adrLoopDown, adrDownSpec]
  | succ k ih =>
    intro sf p pw
    unfold adrLoopDown
    by_cases hguard : 0 < p ∨ sf < 12
    · rw [if_pos hguard]
      by_cases hp : 0 < p
      · rw [if_pos hp, ih]
        simp only [adrDownSpec, Prod.mk.injEq]
        refine ⟨by omega, by omega, ?_⟩
        have hc : ¬min (k + 1) p = 0 := by omega
        rw [if_neg hc]
        by_cases hz : min k (p - 1) = 0
        · rw [if_pos hz]
          exact congrArg txPowerIndexToDbm (by omega)
        · rw [if_neg hz]
          exact congrArg txPowerIndexToDbm (by omega)
      · have hsf : sf < 12 := hguard.resolve_left hp
        rw [if_neg hp, ih]
        simp only [adrDownSpec, Prod.mk.injEq]
        refine ⟨by omega, by omega, ?_⟩
        rw [if_pos (by omega), if_pos (by omega)]
    · rw [if_neg hguard]
      push_neg at hguard
      obtain ⟨hp, hsf⟩ := hguard
      simp only [adrDownSpec, Prod.mk.injEq]
      refine ⟨by omega, by omega, ?_⟩
      rw [if_pos (by omega)]

/-- The sign dispatch of server.py:302-319 equals the claim-side closed
form. -/
theorem adr_res_eq (nstep : ℤ) (sf p : ℕ) (pw : ℚ) :
    (if 0 < nstep then adrLoopUp nstep.toNat sf p pw
     else if nstep < 0 then adrLoopDown (-nstep).toNat sf p pw
     else (sf, p, pw)) = adrStepSpec nstep sf p pw := by
  unfold adrStepSpec
  by_cases h1 : 0 < nstep
  · rw [if_pos h1, if_pos h1, adrLoopUp_eq]
  · rw [if_neg h1, if_neg h1]
    by_cases h2 : nstep < 0
    · rw [if_pos h2, if_pos h2, adrLoopDown_eq]
    · rw [if_neg h2, if_neg h2]

/-- `send_downlink` never touches the received-packet counter. -/
theorem sendDownlink_packets_received (s : ServerState) (n : LNode)
    (payload : Payload) (confirmed : Bool) (adr : Option (ℕ × ℚ × ℕ × ℕ))
    (rq : Bool) (t : Option ℚ) (g : Option ℕ) :
    (sendDownlink s n payload confirmed adr rq t g).packets_received
      = s.packets_received := by
  unfold sendDownlink
  dsimp only
  repeat' split
  all_goals rfl

/-- The ADR step never touches the received-packet counter. -/
theorem recvAdrApply_packets_received (s : ServerState) (n1 : LNode) (nid : ℕ) :
    (recvAdrApply s n1 nid).packets_received = s.packets_received := by
  unfold recvAdrApply
  dsimp only
  repeat' split
  all_goals first
  | rfl
  | rw [sendDownlink_packets_received]

/-- On the plain data path (no duplicate, no join frame, node active, no
ADR-ACK pending, server-side ADR on, RSSI known), `receive` is the
record phase followed by the ADR branch (server.py:238-241, 282-325). -/
theorem receive_adr_route (s : ServerState) (n : LNode) (eid nid gwid : ℕ)
    (r : ℚ) (micOk joinOk : Bool)
    (hdup : eid ∉ s.received_events)
    (hfind : findNode s.nodes nid = some n)
    (hact : n.activated = true)
    (hack : n.last_adr_ack_req = false)
    (hadr : s.adr_enabled = true) :
    receive s eid nid gwid (some r) none micOk joinOk =
      recvAdrBranch
        { s with received_events := insert eid s.received_events,
                 event_gateway := s.event_gateway ++ [(eid, gwid)],
                 packets_received := s.packets_received + 1 } nid r := by
  unfold receive
  rw [if_neg hdup]
  dsimp only
  rw [hfind]
  dsimp only
  rw [if_neg (by simp [isJoinRequest]), if_neg (by simp [isDataFrame]),
    if_pos hact, hfind]
  try dsimp only
  rw [if_neg (by simp [hack]), hadr]

/-- The ADR branch on a found node: append the capped SNR sample, then
apply the ADR step exactly when the history is full. -/
theorem recvAdrBranch_eq (s : ServerState) (n : LNode) (nid : ℕ) (r : ℚ)
    (hfind : findNode s.nodes nid = some n) :
    recvAdrBranch s nid r =
      (let h1 := n.snr_history ++ [r - s.noise_floor]
       let h2 := if 20 < h1.length then h1.tail else h1
       let n1 : LNode := { n with snr_history := h2 }
       let s1 := { s with nodes := updateNode s.nodes n1 }
       if 20 ≤ h2.length then recvAdrApply s1 n1 nid else s1) := by
  unfold recvAdrBranch
  rw [hfind]

/-- `send_downlink` with an ADR command, default gateway and no
`at_time`: the LinkADRReq frame goes to the first gateway's buffer
(class A/C) or to the class-B ping-slot scheduler, and the node's
counters are bumped. -/
theorem sendDownlink_adr (s : ServerState) (n : LNode) (sf2 : ℕ) (pw2 : ℚ)
    (g0 : LGateway) (hg0 : s.gateways.head? = some g0) :
    sendDownlink s n (.raw []) false (some (sf2, pw2, n.chmask, n.nb_trans))
        false none none =
      (let fr := adrFrame n sf2 pw2
       let nodes2 := updateNode
         (updateNode s.nodes { n with fcnt_down := n.fcnt_down + 1 })
         { n with fcnt_down := n.fcnt_down + 1,
                  downlink_pending := n.downlink_pending + 1 }
       if n.class_type = CT.B then
         { s with nodes := nodes2,
                  scheduler := schedClassB s.scheduler n.id
                    ((s.sim.map SimRef.current_time).getD 0) fr g0.id
                    s.beacon_interval s.ping_slot_interval s.ping_slot_offset
                    n.last_beacon_time }
       else
         { s with nodes := nodes2,
                  gateways := gwsBuffer s.gateways g0.id n.id fr }) := by
  unfold sendDownlink
  dsimp only
  rw [hg0]
  try dsimp only
  cases hct : n.class_type with
  | B =>
    rw [if_pos rfl]
    rfl
  | A =>
    rw [if_neg (by decide)]
    rfl
  | C =>
    rw [if_neg (by decide)]
    rfl


/-- When the full-history ADR step leaves `(sf, power)` unchanged,
`recvAdrApply` is the identity (the guard of server.py:320 is false). -/
theorem recvAdrApply_unchanged (s : ServerState) (n1 : LNode) (nid : ℕ)
    (hch : ¬((adrStepSpec (pyRound ((listMax n1.snr_history
          - requiredSnr n1.sf - marginDb) / 3)) n1.sf
          (dbmToTxPowerIndex (pyInt n1.tx_power)) n1.tx_power).1 ≠ n1.sf ∨
        (adrStepSpec (pyRound ((listMax n1.snr_history
          - requiredSnr n1.sf - marginDb) / 3)) n1.sf
          (dbmToTxPowerIndex (pyInt n1.tx_power)) n1.tx_power).2.2
          ≠ n1.tx_power)) :
    recvAdrApply s n1 nid = s := by
  unfold recvAdrApply
  dsimp only
  rw [adr_res_eq, if_neg hch]

/-- When the ADR step changes `(sf, power)` and a gateway exists, for a
node that is not class B: bump the node counters, clear its history and
buffer the LinkADRReq at the first gateway (server.py:320-325,
128-174). -/
theorem recvAdrApply_changed_notB (s : ServerState) (n1 : LNode) (nid : ℕ)
    (g0 : LGateway)
    (hg0 : s.gateways.head? = some g0)
    (hfind : findNode s.nodes nid = some n1)
    (hid : n1.id = nid)
    (hB : ¬n1.class_type = CT.B)
    (hch : (adrStepSpec (pyRound ((listMax n1.snr_history
          - requiredSnr n1.sf - marginDb) / 3)) n1.sf
          (dbmToTxPowerIndex (pyInt n1.tx_power)) n1.tx_power).1 ≠ n1.sf ∨
        (adrStepSpec (pyRound ((listMax n1.snr_history
          - requiredSnr n1.sf - marginDb) / 3)) n1.sf
          (dbmToTxPowerIndex (pyInt n1.tx_power)) n1.tx_power).2.2
          ≠ n1.tx_power) :
    recvAdrApply s n1 nid =
      (let res := adrStepSpec (pyRound ((listMax n1.snr_history
          - requiredSnr n1.sf - marginDb) / 3)) n1.sf
          (dbmToTxPowerIndex (pyInt n1.tx_power)) n1.tx_power
       let fr := adrFrame n1 res.1 res.2.2
       let nodes3 := updateNode (updateNode
           (updateNode s.nodes { n1 with fcnt_down := n1.fcnt_down + 1 })
           { n1 with fcnt_down := n1.fcnt_down + 1,
                     downlink_pending := n1.downlink_pending + 1 })
         { n1 with snr_history := [], fcnt_down := n1.fcnt_down + 1,
                   downlink_pending := n1.downlink_pending + 1 }
       let gws := gwsBuffer s.gateways g0.id nid fr
       { s with nodes := nodes3, gateways := gws }) := by
  unfold recvAdrApply
  dsimp only
  rw [adr_res_eq, if_pos hch]
  rw [sendDownlink_adr s n1 _ _ g0 hg0]
  dsimp only
  rw [if_neg hB]
  dsimp only
  have hf1 : findNode (updateNode s.nodes
        { n1 with fcnt_down := n1.fcnt_down + 1 }) nid
      = some { n1 with fcnt_down := n1.fcnt_down + 1 } :=
    findNode_updateNode s.nodes nid n1 _ hfind rfl
  have hf2 : findNode (updateNode (updateNode s.nodes
          { n1 with fcnt_down := n1.fcnt_down + 1 })
        { n1 with fcnt_down := n1.fcnt_down + 1,
                  downlink_pending := n1.downlink_pending + 1 }) nid
      = some { n1 with fcnt_down := n1.fcnt_down + 1,
                       downlink_pending := n1.downlink_pending + 1 } :=
    findNode_updateNode _ nid _ _ hf1 rfl
  rw [hf2]
  simp only [Option.getD_some]
  rw [hid]

/-- When the ADR step changes `(sf, power)` and a gateway exists, for a
class-B node: bump the node counters, clear its history and schedule the
LinkADRReq at the next ping slot (server.py:320-325, 128-149). -/
theorem recvAdrApply_changed_B (s : ServerState) (n1 : LNode) (nid : ℕ)
    (g0 : LGateway)
    (hg0 : s.gateways.head? = some g0)
    (hfind : findNode s.nodes nid = some n1)
    (hid : n1.id = nid)
    (hB : n1.class_type = CT.B)
    (hch : (adrStepSpec (pyRound ((listMax n1.snr_history
          - requiredSnr n1.sf - marginDb) / 3)) n1.sf
          (dbmToTxPowerIndex (pyInt n1.tx_power)) n1.tx_power).1 ≠ n1.sf ∨
        (adrStepSpec (pyRound ((listMax n1.snr_history
          - requiredSnr n1.sf - marginDb) / 3)) n1.sf
          (dbmToTxPowerIndex (pyInt n1.tx_power)) n1.tx_power).2.2
          ≠ n1.tx_power) :
    recvAdrApply s n1 nid =
      (let res := adrStepSpec (pyRound ((listMax n1.snr_history
          - requiredSnr n1.sf - marginDb) / 3)) n1.sf
          (dbmToTxPowerIndex (pyInt n1.tx_power)) n1.tx_power
       let fr := adrFrame n1 res.1 res.2.2
       let nodes3 := updateNode (updateNode
           (updateNode s.nodes { n1 with fcnt_down := n1.fcnt_down + 1 })
           { n1 with fcnt_down := n1.fcnt_down + 1,
                     downlink_pending := n1.downlink_pending + 1 })
         { n1 with snr_history := [], fcnt_down := n1.fcnt_down + 1,
                   downlink_pending := n1.downlink_pending + 1 }
       let sch := schedClassB s.scheduler nid
         ((s.sim.map SimRef.current_time).getD 0) fr g0.id s.beacon_interval
         s.ping_slot_interval s.ping_slot_offset n1.last_beacon_time
       { s with nodes := nodes3, scheduler := sch }) := by
  unfold recvAdrApply
  dsimp only
  rw [adr_res_eq, if_pos hch]
  rw [sendDownlink_adr s n1 _ _ g0 hg0]
  dsimp only
  rw [if_pos hB]
  dsimp only
  have hf1 : findNode (updateNode s.nodes
        { n1 with fcnt_down := n1.fcnt_down + 1 }) nid
      = some { n1 with fcnt_down := n1.fcnt_down + 1 } :=
    findNode_updateNode s.nodes nid n1 _ hfind rfl
  have hf2 : findNode (updateNode (updateNode s.nodes
          { n1 with fcnt_down := n1.fcnt_down + 1 })
        { n1 with fcnt_down := n1.fcnt_down + 1,
                  downlink_pending := n1.downlink_pending + 1 }) nid
      = some { n1 with fcnt_down := n1.fcnt_down + 1,
                       downlink_pending := n1.downlink_pending + 1 } :=
    findNode_updateNode _ nid _ _ hf1 rfl
  rw [hf2]
  simp only [Option.getD_some]
  rw [hid]

/-- C3 (amended): on the plain data path (no duplicate, node found,
activated, no pending ADR-ACK request, server-side ADR enabled, RSSI
known, at least one gateway registered), `receive` records the packet,
appends `snr = rssi − noise_floor` to the node history capped at 20;
while the history is short nothing else changes; once it is full it
computes `nstep = round((max(history) − REQUIRED_SNR[sf] − MARGIN_DB)/3)`
and applies the closed-form ADR step (SF down to 7 before power index up
for positive `nstep`, power index down to 0 before SF up to 12 for
negative `nstep`); an unchanged `(sf, power)` leaves the down-link state
untouched, and a changed one clears the history and emits the LinkADRReq
down-link — buffered at the first gateway for class A/C, scheduled at
the next ping slot for class B. -/
theorem claim_C3_amended_server_adr (s : ServerState) (n : LNode)
    (eid nid gwid : ℕ) (r : ℚ) (micOk joinOk : Bool) (g0 : LGateway)
    (hdup : eid ∉ s.received_events)
    (hfind : findNode s.nodes nid = some n)
    (hact : n.activated = true)
    (hack : n.last_adr_ack_req = false)
    (hadr : s.adr_enabled = true)
    (hg0 : s.gateways.head? = some g0) :
    AdrOutcome s n nid r g0 eid
      (receive s eid nid gwid (some r) none micOk joinOk) := by
  have hnid : n.id = nid := findNode_id s.nodes nid n hfind
  rw [receive_adr_route s n eid nid gwid r micOk joinOk hdup hfind hact hack
    hadr, recvAdrBranch_eq _ n nid r ?hf0]
  case hf0 => exact hfind
  unfold AdrOutcome
  dsimp only
  set h2 : List ℚ :=
    if 20 < (n.snr_history ++ [r - s.noise_floor]).length
    then (n.snr_history ++ [r - s.noise_floor]).tail
    else n.snr_history ++ [r - s.noise_floor] with hh2
  by_cases hlen : 20 ≤ h2.length
  · rw [if_pos hlen]
    by_cases hch :
        (adrStepSpec (pyRound ((listMax h2 - requiredSnr n.sf - marginDb) / 3))
          n.sf (dbmToTxPowerIndex (pyInt n.tx_power)) n.tx_power).1 ≠ n.sf ∨
        (adrStepSpec (pyRound ((listMax h2 - requiredSnr n.sf - marginDb) / 3))
          n.sf (dbmToTxPowerIndex (pyInt n.tx_power)) n.tx_power).2.2
          ≠ n.tx_power
    · by_cases hB : n.class_type = CT.B
      · rw [recvAdrApply_changed_B _ _ nid g0 ?hg ?hf ?hi ?hb ?hc]
        case hg => exact hg0
        case hf => exact findNode_updateNode s.nodes nid n _ hfind rfl
        case hi => exact hnid
        case hb => exact hB
        case hc => exact hch
        refine ⟨rfl, rfl, fun h => absurd hlen (by omega), fun _ =>
          ⟨fun hnc => absurd hch hnc, fun _ => ⟨?_, fun hnb => absurd hB hnb,
            fun _ => ⟨rfl, rfl⟩⟩⟩⟩
        exact findNode_updateNode _ nid
          ({ n with snr_history := h2,
                    fcnt_down := n.fcnt_down + 1,
                    downlink_pending := n.downlink_pending + 1 } : LNode)
          ({ n with snr_history := [],
                    fcnt_down := n.fcnt_down + 1,
                    downlink_pending := n.downlink_pending + 1 } : LNode)
          (findNode_updateNode _ nid
            ({ n with snr_history := h2,
                      fcnt_down := n.fcnt_down + 1 } : LNode)
            ({ n with snr_history := h2,
                      fcnt_down := n.fcnt_down + 1,
                      downlink_pending := n.downlink_pending + 1 } : LNode)
            (findNode_updateNode _ nid
              ({ n with snr_history := h2 } : LNode)
              ({ n with snr_history := h2,
                        fcnt_down := n.fcnt_down + 1 } : LNode)
              (findNode_updateNode s.nodes nid n
                ({ n with snr_history := h2 } : LNode) hfind rfl) rfl) rfl)
          rfl
      · rw [recvAdrApply_changed_notB _ _ nid g0 ?hg ?hf ?hi ?hb ?hc]
        case hg => exact hg0
        case hf => exact findNode_updateNode s.nodes nid n _ hfind rfl
        case hi => exact hnid
        case hb => exact hB
        case hc => exact hch
        refine ⟨rfl, rfl, fun h => absurd hlen (by omega), fun _ =>
          ⟨fun hnc => absurd hch hnc, fun _ => ⟨?_, fun _ => ⟨rfl, rfl⟩,
            fun hb => absurd hb hB⟩⟩⟩
        exact findNode_updateNode _ nid
          ({ n with snr_history := h2,
                    fcnt_down := n.fcnt_down + 1,
                    downlink_pending := n.downlink_pending + 1 } : LNode)
          ({ n with snr_history := [],
                    fcnt_down := n.fcnt_down + 1,
                    downlink_pending := n.downlink_pending + 1 } : LNode)
          (findNode_updateNode _ nid
            ({ n with snr_history := h2,
                      fcnt_down := n.fcnt_down + 1 } : LNode)
            ({ n with snr_history := h2,
                      fcnt_down := n.fcnt_down + 1,
                      downlink_pending := n.downlink_pending + 1 } : LNode)
            (findNode_updateNode _ nid
              ({ n with snr_history := h2 } : LNode)
              ({ n with snr_history := h2,
                        fcnt_down := n.fcnt_down + 1 } : LNode)
              (findNode_updateNode s.nodes nid n
                ({ n with snr_history := h2 } : LNode) hfind rfl) rfl) rfl)
          rfl
    · rw [recvAdrApply_unchanged _ _ nid ?hc]
      case hc => exact hch
      exact ⟨rfl, rfl, fun h => absurd hlen (by omega),
        fun _ => ⟨fun _ => ⟨findNode_updateNode s.nodes nid n _ hfind rfl,
          rfl, rfl⟩, fun hc2 => absurd hc2 hch⟩⟩
  · rw [if_neg hlen]
    exact ⟨rfl, rfl,
      fun _ => ⟨findNode_updateNode s.nodes nid n _ hfind rfl, rfl, rfl⟩,
      fun h => absurd h hlen⟩

/-- C3 witness: on `wSrvAdrGw` (one gateway, ADR on, node at SF 12 with
a 19-sample zero history) a packet with RSSI 0 fills the history; the
margin is 5 dB, `nstep = 2`, the step lowers SF to 10, and the
LinkADRReq is buffered at the gateway. -/
theorem claim_C3_amended_server_adr_witness :
    (5 : ℕ) ∉ wSrvAdrGw.received_events ∧
    AdrOutcome wSrvAdrGw wNodeAdr 1 0 wGw 5
      (receive wSrvAdrGw 5 1 0 (some 0) none true true) :=
  ⟨by decide,
   claim_C3_amended_server_adr wSrvAdrGw wNodeAdr 5 1 0 0 true true wGw
     (by decide) rfl rfl rfl rfl rfl⟩

set_option maxRecDepth 8192 in
/-- C3 as stated is refuted: on `wSrvAdrNoGw` (no gateway registered)
the full-history ADR step changes `(sf, power)` (SF 12 → 10) and the
history is cleared, but no LinkADRReq down-link is emitted —
`send_downlink` returns before building the frame (server.py:92-94), so
nothing is buffered or scheduled and `fcnt_down` stays 0, contradicting
the claimed "emits … if and only if `(sf, power)` differs". -/
theorem claim_C3_counterexample :
    (adrStepSpec (pyRound ((listMax (List.replicate 19 (0 : ℚ) ++ [0])
        - requiredSnr 12 - marginDb) / 3)) 12
        (dbmToTxPowerIndex (pyInt 14)) 14).1 ≠ 12 ∧
    receive wSrvAdrNoGw 5 1 0 (some 0) none true true =
      { wSrvAdrNoGw with
          received_events := {5},
          event_gateway := [(5, 0)],
          packets_received := 1,
          nodes := [{ wNodeAdr with snr_history := [] }] } := by
  refine ⟨by with_unfolding_all decide, ?_⟩
  rw [receive_adr_route wSrvAdrNoGw wNodeAdr 5 1 0 0 true true (by decide)
    rfl rfl rfl rfl]
  rw [recvAdrBranch_eq _ wNodeAdr 1 0 ?hf0]
  case hf0 => rfl
  dsimp only
  rw [show (if 20 < (wNodeAdr.snr_history ++ [0 - wSrvAdrNoGw.noise_floor]).length
      then (wNodeAdr.snr_history ++ [0 - wSrvAdrNoGw.noise_floor]).tail
      else wNodeAdr.snr_history ++ [0 - wSrvAdrNoGw.noise_floor])
      = wNodeAdr.snr_history ++ [0 - wSrvAdrNoGw.noise_floor] from
    if_neg (by decide)]
  rw [if_pos (show (20 : ℕ)
      ≤ (wNodeAdr.snr_history ++ [0 - wSrvAdrNoGw.noise_floor]).length from
    by decide)]
  unfold recvAdrApply
  dsimp only
  rw [adr_res_eq]
  rw [if_pos ?hc]
  case hc => with_unfolding_all decide
  rw [sendDownlink_no_gateway _ _ _ _ _ _ _ ?hg]
  case hg => rfl
  rw [show findNode (updateNode wSrvAdrNoGw.nodes
        ({ wNodeAdr with snr_history :=
            wNodeAdr.snr_history ++ [0 - wSrvAdrNoGw.noise_floor] } : LNode)) 1
      = some ({ wNodeAdr with snr_history :=
            wNodeAdr.snr_history ++ [0 - wSrvAdrNoGw.noise_floor] } : LNode)
    from rfl]
  simp only [Option.getD_some]
  rfl


end LoraSim
